import Mathlib

/-!
Verification of the serial-number codec and the bulk-import reconciler of the
Coastal-Waves inventory service.

The Lean definitions below are a shallow embedding of
`backend/app/serials.py` and `backend/app/importer.py`:

* Python `str` values are Lean `String`s; the string operations the code uses
  (`strip`, `upper`, `lower`, `replace`, `zfill`, slicing, `re.sub` with the
  class `[^A-Z0-9]`, splitting a serial at `-`) are modelled as explicit
  functions over `String.data` (`List Char`).  The code only ever applies them
  to ASCII data, so the character-level models (`Char.toUpper`,
  ASCII whitespace, ASCII digits) coincide with Python's behaviour on every
  input the claims are about.
* The SQLAlchemy session is modelled as an explicit `Db` value: the three
  catalog tables plus the inventory table as lists, and a counter of issued
  `commit()` calls.  `filter_by(code=..).first()` is `List.find?` on the code
  field, `.like("PTG-..-%")` with its only wildcard a trailing `%` is a
  prefix test, `db.add` appends to the inventory list (SQLAlchemy's autoflush
  makes pending rows visible to the later queries of the same call, which the
  immediate append models), and `commit()` bumps the commit counter.
* `pandas` cell access: `str(cell)` yields some string and
  `_normalize_int(cell)` yields some integer, and the importer looks at cells
  only through these total coercions, so an input row is modelled by the
  coerced values themselves (`String` / `Int`), which ranges over exactly the
  values the row loop can see.  Worksheet column names are kept as raw strings
  and normalised exactly as `_load_dataframe` does.
-/

deriving instance DecidableEq for Except

namespace CoastalWaves

/-- Characters matched by the regex class `[A-Z0-9]` (codes `A`–`Z` are 65–90,
`0`–`9` are 48–57). -/
def isUpperAlnum (c : Char) : Bool :=
  (65 ≤ c.toNat && c.toNat ≤ 90) || (48 ≤ c.toNat && c.toNat ≤ 57)

/-- ASCII decimal digits, the characters `\d` matches in the serial pattern
(the serials under consideration are ASCII). -/
def isAsciiDigit (c : Char) : Bool :=
  48 ≤ c.toNat && c.toNat ≤ 57

/-- The whitespace characters stripped by Python `str.strip()`:
space (32), tab (9), newline (10), carriage return (13), vertical tab (11),
form feed (12). -/
def isPyWhitespace (c : Char) : Bool :=
  c.toNat = 32 || c.toNat = 9 || c.toNat = 10 || c.toNat = 13 ||
    c.toNat = 11 || c.toNat = 12

/-- Python `str.strip()`: drop leading and trailing whitespace. -/
def pyStrip (s : String) : String :=
  ⟨((s.data.dropWhile isPyWhitespace).reverse.dropWhile isPyWhitespace).reverse⟩

/-- Python `str.upper()` (character-by-character; exact on ASCII input). -/
def pyUpper (s : String) : String :=
  ⟨s.data.map Char.toUpper⟩

/-- Python `str.lower()` (character-by-character; exact on ASCII input). -/
def pyLower (s : String) : String :=
  ⟨s.data.map Char.toLower⟩

/-- Python `str.zfill(width)`: left-pad with `'0'` to at least `width`
characters.  (`zfill`'s special treatment of a leading sign never applies:
the importer only calls it on `str` of a positive int.) -/
def pyZfill (s : String) (width : Nat) : String :=
  ⟨List.replicate (width - s.data.length) '0' ++ s.data⟩

/-- Replacement core of Python `str.replace(pat, rep)`: replace every
non-overlapping occurrence of `pat`, scanning left to right.  The `fuel`
argument only makes the recursion structural; `pyReplace` passes the length
of the string, which each step strictly decreases, so the `0`-fuel row is
never taken. -/
def pyReplaceAux (pat rep : List Char) : Nat → List Char → List Char
  | _, [] => if pat.isEmpty then rep else []
  | 0, s => s
  | fuel + 1, c :: cs =>
    if pat.isEmpty then rep ++ c :: pyReplaceAux pat rep fuel cs
    else if pat.isPrefixOf (c :: cs) then
      rep ++ pyReplaceAux pat rep fuel (cs.drop (pat.length - 1))
    else c :: pyReplaceAux pat rep fuel cs

/-- Python `s.replace(pat, rep)` (all occurrences, left to right,
non-overlapping). -/
def pyReplace (s pat rep : String) : String :=
  ⟨pyReplaceAux pat.data rep.data s.data.length s.data⟩

/-- Split a character list at every `'-'`, like `SERIAL_PATTERN` does: the
three code classes and `\d` all exclude `'-'`, so the anchored regex of
`serials.py` matches exactly when this split yields `["PTG", painting,
variant, location, sequence]` with each part in its class and length range. -/
def splitDash : List Char → List (List Char)
  | [] => [[]]
  | c :: cs =>
    if c = '-' then [] :: splitDash cs
    else
      match splitDash cs with
      | [] => [[c]]
      | p :: ps => (c :: p) :: ps

/-- `serials.SerialComponents`. -/
structure SerialComponents where
  painting_code : String
  variant_code : String
  location_code : String
  sequence : String
deriving DecidableEq

/-- The `serial_number` property of `SerialComponents`:
`f"PTG-{painting}-{variant}-{location}-{sequence}"`. -/
def SerialComponents.serial_number (c : SerialComponents) : String :=
  "PTG-" ++ c.painting_code ++ "-" ++ c.variant_code ++ "-" ++
    c.location_code ++ "-" ++ c.sequence

/-- The `ValueError` message raised by `parse_serial_number`. -/
def SERIAL_FORMAT_MESSAGE : String :=
  "Serial number must follow PTG-<PAINTING>-<VARIANT>-<LOCATION>-<SEQUENCE> with codes in uppercase."

/-- Whether one serial segment matches its regex piece
`[A-Z0-9]{lo,hi}`. -/
def segmentOk (seg : List Char) (lo hi : Nat) : Bool :=
  seg.all isUpperAlnum && decide (lo ≤ seg.length) && decide (seg.length ≤ hi)

/-- `serials.parse_serial_number`: strip, then match the anchored pattern
`^PTG-[A-Z0-9]{2,10}-[A-Z0-9]{2,12}-[A-Z0-9]{2,8}-\d{4}$` (see `splitDash`
for why the match is exactly this dash decomposition); a failed match raises
`ValueError`, modelled as `Except.error`. -/
def parse_serial_number (serial_number : String) : Except String SerialComponents :=
  match splitDash (pyStrip serial_number).data with
  | [ptg, p, v, l, q] =>
    if ptg = "PTG".data ∧ segmentOk p 2 10 = true ∧ segmentOk v 2 12 = true ∧
        segmentOk l 2 8 = true ∧ q.all isAsciiDigit = true ∧ q.length = 4 then
      .ok ⟨⟨p⟩, ⟨v⟩, ⟨l⟩, ⟨q⟩⟩
    else .error SERIAL_FORMAT_MESSAGE
  | _ => .error SERIAL_FORMAT_MESSAGE

/-- `serials.build_variant_code`: `re.sub(r"[^A-Z0-9]", "", x.upper())[:4]`
is filtering the uppercased text to `[A-Z0-9]` and truncating to 4. -/
def build_variant_code (category size : String) (stretch framing : Bool) : String :=
  let category_part : String := ⟨((pyUpper category).data.filter isUpperAlnum).take 4⟩
  let size_part : String := ⟨((pyUpper size).data.filter isUpperAlnum).take 4⟩
  let stretch_part : String := if stretch then "S" else "N"
  let frame_part : String := if framing then "F" else "N"
  category_part ++ size_part ++ stretch_part ++ frame_part

/-- `serials.validate_serial_against_components`; the `ValueError`s it raises
(either propagated from `parse_serial_number` or one of the three mismatch
messages) are modelled as `Except.error`. -/
def validate_serial_against_components (serial_number : String)
    (expected : SerialComponents) : Except String Unit :=
  match parse_serial_number serial_number with
  | .error e => .error e
  | .ok parsed =>
    if parsed.painting_code ≠ expected.painting_code then
      .error "Painting code in serial number does not match record."
    else if parsed.variant_code ≠ expected.variant_code then
      .error "Variant code in serial number does not match record."
    else if parsed.location_code ≠ expected.location_code then
      .error "Location code in serial number does not match record."
    else .ok ()

/-- `serials.next_sequence_number`: `str(existing_count + 1).zfill(4)`.
`existing_count` comes from a SQL `count()` and is non-negative. -/
def next_sequence_number (existing_count : Nat) : String :=
  pyZfill (Nat.repr (existing_count + 1)) 4

/-! ### Basic string and character lemmas -/

theorem str_ext {a b : String} (h : a.data = b.data) : a = b := by
  cases a; cases b; exact congrArg String.mk h

theorem data_append (a b : String) : (a ++ b).data = a.data ++ b.data := rfl

theorem upperAlnum_toUpper {c : Char} (h : isUpperAlnum c = true) : c.toUpper = c := by
  simp only [isUpperAlnum, Bool.or_eq_true, Bool.and_eq_true, decide_eq_true_eq] at h
  rw [Char.toUpper, if_neg]
  omega

theorem pyUpper_eq_self {s : String} (h : s.data.all isUpperAlnum = true) :
    pyUpper s = s := by
  apply str_ext
  show s.data.map Char.toUpper = s.data
  rw [List.map_congr_left fun c hc => upperAlnum_toUpper (List.all_eq_true.mp h c hc)]
  exact List.map_id _

theorem upperAlnum_ne_dash {c : Char} (h : isUpperAlnum c = true) : c ≠ '-' := by
  intro he; subst he; exact absurd h (by decide)

theorem asciiDigit_ne_dash {c : Char} (h : isAsciiDigit c = true) : c ≠ '-' := by
  intro he; subst he; exact absurd h (by decide)

theorem asciiDigit_not_ws {c : Char} (h : isAsciiDigit c = true) :
    isPyWhitespace c = false := by
  simp only [isAsciiDigit, Bool.and_eq_true, decide_eq_true_eq] at h
  simp only [isPyWhitespace, Bool.or_eq_false_iff, decide_eq_false_iff_not]
  omega

theorem dropWhile_id_of_head {α} (p : α → Bool) (l : List α)
    (h : ∀ x, l.head? = some x → p x = false) : l.dropWhile p = l := by
  cases l with
  | nil => rfl
  | cons a l => rw [List.dropWhile_cons, if_neg (by simp [h a rfl])]

theorem pyStrip_eq_self {s : String}
    (h1 : ∀ c, s.data.head? = some c → isPyWhitespace c = false)
    (h2 : ∀ c, s.data.getLast? = some c → isPyWhitespace c = false) :
    pyStrip s = s := by
  apply str_ext
  show ((s.data.dropWhile isPyWhitespace).reverse.dropWhile isPyWhitespace).reverse = s.data
  rw [dropWhile_id_of_head _ _ h1]
  rw [dropWhile_id_of_head _ _ fun x hx => h2 x (by rwa [List.head?_reverse] at hx)]
  exact List.reverse_reverse _

theorem splitDash_no_dash (xs : List Char) (h : ∀ c ∈ xs, c ≠ '-') :
    splitDash xs = [xs] := by
  induction xs with
  | nil => rfl
  | cons c cs ih =>
    rw [splitDash, if_neg (h c (by simp))]
    rw [ih fun d hd => h d (by simp [hd])]

theorem splitDash_append (xs ys : List Char) (h : ∀ c ∈ xs, c ≠ '-') :
    splitDash (xs ++ '-' :: ys) = xs :: splitDash ys := by
  induction xs with
  | nil => rw [List.nil_append, splitDash, if_pos rfl]
  | cons c cs ih =>
    rw [List.cons_append, splitDash, if_neg (h c (by simp))]
    rw [ih fun d hd => h d (by simp [hd])]

/-- Structural facts recovered from a successful parse: every segment is in
its regex character class and length range. -/
theorem parse_ok_inv {s : String} {c : SerialComponents}
    (h : parse_serial_number s = .ok c) :
    c.painting_code.data.all isUpperAlnum = true ∧
      2 ≤ c.painting_code.data.length ∧ c.painting_code.data.length ≤ 10 ∧
    c.variant_code.data.all isUpperAlnum = true ∧
      2 ≤ c.variant_code.data.length ∧ c.variant_code.data.length ≤ 12 ∧
    c.location_code.data.all isUpperAlnum = true ∧
      2 ≤ c.location_code.data.length ∧ c.location_code.data.length ≤ 8 ∧
    c.sequence.data.all isAsciiDigit = true ∧ c.sequence.data.length = 4 := by
  unfold parse_serial_number at h
  split at h
  · split at h
    · rename_i hcond
      obtain ⟨hptg, hp, hv, hl, hq, hq4⟩ := hcond
      cases h
      simp only [segmentOk, Bool.and_eq_true, decide_eq_true_eq] at hp hv hl
      exact ⟨hp.1.1, hp.1.2, hp.2, hv.1.1, hv.1.2, hv.2, hl.1.1, hl.1.2, hl.2, hq, hq4⟩
    · exact absurd h (by simp)
  · exact absurd h (by simp)

/-- The canonical serial grammar: literal `PTG-`, painting code of 2–10
uppercase alphanumerics, `-`, variant code of 2–12, `-`, location code of
2–8, `-`, exactly 4 digits, end of string. -/
def MatchesSerialGrammar (s : String) : Prop :=
  ∃ p v l q : List Char,
    s.data = "PTG-".data ++ (p ++ ('-' :: (v ++ ('-' :: (l ++ ('-' :: q)))))) ∧
    p.all isUpperAlnum = true ∧ 2 ≤ p.length ∧ p.length ≤ 10 ∧
    v.all isUpperAlnum = true ∧ 2 ≤ v.length ∧ v.length ≤ 12 ∧
    l.all isUpperAlnum = true ∧ 2 ≤ l.length ∧ l.length ≤ 8 ∧
    q.all isAsciiDigit = true ∧ q.length = 4

theorem serial_number_data (c : SerialComponents) :
    c.serial_number.data =
      "PTG-".data ++ (c.painting_code.data ++ ('-' :: (c.variant_code.data ++
        ('-' :: (c.location_code.data ++ ('-' :: c.sequence.data)))))) := by
  simp [SerialComponents.serial_number, data_append, List.append_assoc]

theorem getLast?_append_right {α} (x y : List α) (hy : y ≠ []) :
    (x ++ y).getLast? = y.getLast? := by
  rw [List.getLast?_append, List.getLast?_eq_getLast y hy]
  rfl

theorem getLast?_cons_of_ne_nil {α} (a : α) (t : List α) (ht : t ≠ []) :
    (a :: t).getLast? = t.getLast? :=
  getLast?_append_right [a] t ht

theorem serial_shape_getLast {s : String} {p v l q : List Char}
    (hs : s.data = "PTG-".data ++ (p ++ ('-' :: (v ++ ('-' :: (l ++ ('-' :: q)))))))
    (hq0 : q ≠ []) : s.data.getLast? = q.getLast? := by
  rw [hs, getLast?_append_right _ _ (by simp), getLast?_append_right _ _ (by simp),
    getLast?_cons_of_ne_nil _ _ (by simp), getLast?_append_right _ _ (by simp),
    getLast?_cons_of_ne_nil _ _ (by simp), getLast?_append_right _ _ (by simp),
    getLast?_cons_of_ne_nil _ _ hq0]

/-- Claim C2: every string matching the canonical serial grammar parses
successfully, and formatting the parsed components (the `serial_number`
property) yields the original string. -/
theorem parse_format_roundtrip (s : String) (h : MatchesSerialGrammar s) :
    ∃ comps, parse_serial_number s = .ok comps ∧ comps.serial_number = s := by
  obtain ⟨p, v, l, q, hs, hpA, hp2, hp10, hvA, hv2, hv12, hlA, hl2, hl8, hqA, hq4⟩ := h
  have hpd : ∀ c ∈ p, c ≠ '-' := fun c hc => upperAlnum_ne_dash (List.all_eq_true.mp hpA c hc)
  have hvd : ∀ c ∈ v, c ≠ '-' := fun c hc => upperAlnum_ne_dash (List.all_eq_true.mp hvA c hc)
  have hld : ∀ c ∈ l, c ≠ '-' := fun c hc => upperAlnum_ne_dash (List.all_eq_true.mp hlA c hc)
  have hqd : ∀ c ∈ q, c ≠ '-' := fun c hc => asciiDigit_ne_dash (List.all_eq_true.mp hqA c hc)
  have hq0 : q ≠ [] := by intro h0; rw [h0] at hq4; simp at hq4
  have hstrip : pyStrip s = s := by
    apply pyStrip_eq_self
    · intro c hc
      rw [hs] at hc
      simp only [show "PTG-".data = ['P', 'T', 'G', '-'] from rfl, List.cons_append,
        List.head?_cons, Option.some.injEq] at hc
      subst hc; decide
    · intro c hc
      rw [serial_shape_getLast hs hq0] at hc
      have hmem : c ∈ q := by
        rw [List.getLast?_eq_getLast q hq0, Option.some.injEq] at hc
        rw [← hc]
        exact List.getLast_mem hq0
      exact asciiDigit_not_ws (List.all_eq_true.mp hqA c hmem)
  have hsplit : splitDash s.data =
      [['P', 'T', 'G'], p, v, l, q] := by
    rw [show s.data = ['P', 'T', 'G'] ++
        '-' :: (p ++ ('-' :: (v ++ ('-' :: (l ++ ('-' :: q)))))) from hs]
    rw [splitDash_append _ _ (by decide), splitDash_append p _ hpd,
      splitDash_append v _ hvd, splitDash_append l _ hld, splitDash_no_dash q hqd]
  refine ⟨⟨⟨p⟩, ⟨v⟩, ⟨l⟩, ⟨q⟩⟩, ?_, ?_⟩
  · unfold parse_serial_number
    rw [hstrip, hsplit]
    have hcond : (['P', 'T', 'G'] : List Char) = "PTG".data ∧ segmentOk p 2 10 = true ∧
        segmentOk v 2 12 = true ∧ segmentOk l 2 8 = true ∧
        q.all isAsciiDigit = true ∧ q.length = 4 := by
      refine ⟨rfl, ?_, ?_, ?_, hqA, hq4⟩ <;>
        simp [segmentOk, hpA, hp2, hp10, hvA, hv2, hv12, hlA, hl2, hl8]
    exact if_pos hcond
  · apply str_ext
    rw [serial_number_data]
    exact hs.symm

/-- Witness for C2 at a concrete canonical serial. -/
theorem parse_format_roundtrip_witness :
    MatchesSerialGrammar "PTG-AB-CDSM-EF-0001" ∧
    ∃ comps, parse_serial_number "PTG-AB-CDSM-EF-0001" = .ok comps ∧
      comps.serial_number = "PTG-AB-CDSM-EF-0001" := by
  have hg : MatchesSerialGrammar "PTG-AB-CDSM-EF-0001" :=
    ⟨"AB".data, "CDSM".data, "EF".data, "0001".data, by decide, by decide, by decide,
      by decide, by decide, by decide, by decide, by decide, by decide, by decide,
      by decide, by decide⟩
  exact ⟨hg, parse_format_roundtrip _ hg⟩

/-- Claim C6: `build_variant_code` returns exactly the concatenation of the
first 4 alphanumerics of the normalised category, the first 4 alphanumerics of
the normalised size, the stretch flag char and the framing flag char; the
result has at most 10 characters, all uppercase alphanumeric.  (Totality and
determinism are inherent: the embedding is a Lean function.) -/
theorem build_variant_code_spec (category size : String) (stretch framing : Bool) :
    build_variant_code category size stretch framing =
      (⟨((pyUpper category).data.filter isUpperAlnum).take 4⟩ : String) ++
        (⟨((pyUpper size).data.filter isUpperAlnum).take 4⟩ : String) ++
        (if stretch then "S" else "N") ++ (if framing then "F" else "N") ∧
    (build_variant_code category size stretch framing).data.length ≤ 10 ∧
    ∀ c ∈ (build_variant_code category size stretch framing).data,
      isUpperAlnum c = true := by
  have hsp : ((if stretch then "S" else "N" : String)).data.length = 1 := by
    cases stretch <;> rfl
  have hfp : ((if framing then "F" else "N" : String)).data.length = 1 := by
    cases framing <;> rfl
  have hspc : ∀ c ∈ ((if stretch then "S" else "N" : String)).data,
      isUpperAlnum c = true := by
    cases stretch
    · intro c hc
      have hcs := List.mem_singleton.mp (show c ∈ ['N'] from hc)
      subst hcs; decide
    · intro c hc
      have hcs := List.mem_singleton.mp (show c ∈ ['S'] from hc)
      subst hcs; decide
  have hfpc : ∀ c ∈ ((if framing then "F" else "N" : String)).data,
      isUpperAlnum c = true := by
    cases framing
    · intro c hc
      have hcs := List.mem_singleton.mp (show c ∈ ['N'] from hc)
      subst hcs; decide
    · intro c hc
      have hcs := List.mem_singleton.mp (show c ∈ ['F'] from hc)
      subst hcs; decide
  refine ⟨rfl, ?_, ?_⟩
  · have h1 : (((pyUpper category).data.filter isUpperAlnum).take 4).length ≤ 4 :=
      List.length_take_le _ _
    have h2 : (((pyUpper size).data.filter isUpperAlnum).take 4).length ≤ 4 :=
      List.length_take_le _ _
    simp only [build_variant_code, data_append, List.length_append, hsp, hfp]
    omega
  · intro c hc
    simp only [build_variant_code, data_append, List.mem_append] at hc
    rcases hc with ((hc | hc) | hc) | hc
    · exact (List.mem_filter.mp (List.take_subset _ _ hc)).2
    · exact (List.mem_filter.mp (List.take_subset _ _ hc)).2
    · exact hspc c hc
    · exact hfpc c hc

/-- Claim C7: `validate_serial_against_components` parses the serial text,
then compares painting, variant and location segments in that order against
the expected components, reporting the distinctly worded error of the first
mismatching segment; the sequence is never compared. -/
theorem validate_compares_segments_in_order (serialText : String)
    (expected parsed : SerialComponents)
    (hparse : parse_serial_number serialText = .ok parsed) :
    (∀ seq : String,
      validate_serial_against_components serialText
        ⟨expected.painting_code, expected.variant_code, expected.location_code, seq⟩ =
        validate_serial_against_components serialText expected) ∧
    (parsed.painting_code ≠ expected.painting_code →
      validate_serial_against_components serialText expected =
        .error "Painting code in serial number does not match record.") ∧
    (parsed.painting_code = expected.painting_code →
      parsed.variant_code ≠ expected.variant_code →
      validate_serial_against_components serialText expected =
        .error "Variant code in serial number does not match record.") ∧
    (parsed.painting_code = expected.painting_code →
      parsed.variant_code = expected.variant_code →
      parsed.location_code ≠ expected.location_code →
      validate_serial_against_components serialText expected =
        .error "Location code in serial number does not match record.") ∧
    (parsed.painting_code = expected.painting_code →
      parsed.variant_code = expected.variant_code →
      parsed.location_code = expected.location_code →
      validate_serial_against_components serialText expected = .ok ()) := by
  unfold validate_serial_against_components
  rw [hparse]
  refine ⟨fun seq => rfl, fun h1 => ?_, fun h1 h2 => ?_, fun h1 h2 h3 => ?_,
    fun h1 h2 h3 => ?_⟩
  · simp [h1]
  · simp [h1, h2]
  · simp [h1, h2, h3]
  · simp [h1, h2, h3]

/-- Witness for C7: concrete serial and expected components that agree on the
three code segments but disagree on the sequence; validation succeeds. -/
theorem validate_compares_segments_in_order_witness :
    parse_serial_number "PTG-AB-CD-EF-0001" = .ok ⟨"AB", "CD", "EF", "0001"⟩ ∧
    validate_serial_against_components "PTG-AB-CD-EF-0001"
      ⟨"AB", "CD", "EF", "9999"⟩ = .ok () := by
  have hp : parse_serial_number "PTG-AB-CD-EF-0001" = .ok ⟨"AB", "CD", "EF", "0001"⟩ := by
    rfl
  exact ⟨hp, (validate_compares_segments_in_order _ _ _ hp).2.2.2.2 rfl rfl rfl⟩

/-! ### Length facts about `Nat.repr`, for claim C9 -/

theorem toDigitsCore_ds_le (b : Nat) :
    ∀ (f n : Nat) (ds : List Char), ds.length ≤ (Nat.toDigitsCore b f n ds).length := by
  intro f
  induction f with
  | zero => intro n ds; simp [Nat.toDigitsCore]
  | succ f ih =>
    intro n ds
    simp only [Nat.toDigitsCore]
    split
    · simp
    · calc ds.length ≤ (Nat.digitChar (n % b) :: ds).length := by simp
        _ ≤ _ := ih _ _

theorem toDigitsCore_length_lower :
    ∀ (k f n : Nat) (ds : List Char), 10 ^ k ≤ n → k + 1 ≤ f →
      ds.length + k + 1 ≤ (Nat.toDigitsCore 10 f n ds).length := by
  intro k
  induction k with
  | zero =>
    intro f n ds hn hf
    obtain ⟨f', rfl⟩ : ∃ f', f = f' + 1 := ⟨f - 1, by omega⟩
    simp only [Nat.toDigitsCore]
    split
    · simp
    · have := toDigitsCore_ds_le 10 f' (n / 10) (Nat.digitChar (n % 10) :: ds)
      simp only [List.length_cons] at this
      omega
  | succ k ih =>
    intro f n ds hn hf
    obtain ⟨f', rfl⟩ : ∃ f', f = f' + 1 := ⟨f - 1, by omega⟩
    have hn10 : 10 ^ k ≤ n / 10 := by
      rw [Nat.le_div_iff_mul_le (by norm_num)]
      calc 10 ^ k * 10 = 10 ^ (k + 1) := (pow_succ 10 k).symm
        _ ≤ n := hn
    have hpow : 1 ≤ 10 ^ k := Nat.one_le_pow _ _ (by norm_num)
    have hne : ¬ n / 10 = 0 := by omega
    simp only [Nat.toDigitsCore, hne, if_false]
    have := ih f' (n / 10) (Nat.digitChar (n % 10) :: ds) hn10 (by omega)
    simp only [List.length_cons] at this
    omega

theorem repr_length_lower (m k : Nat) (h : 10 ^ k ≤ m) :
    k + 1 ≤ (Nat.repr m).data.length := by
  have hk : k ≤ m := le_trans (le_of_lt (Nat.lt_pow_self (by norm_num) k)) h
  have := toDigitsCore_length_lower k (m + 1) m [] h (by omega)
  simpa [Nat.repr, Nat.toDigits, List.asString] using this

/-- Claim C9: `next_sequence_number existingCount` is the decimal
representation of `existingCount + 1` left-padded with `'0'` to at least 4
characters; `0 ↦ "0001"`, `9998 ↦ "9999"`, `9999 ↦ "10000"`, and the result
always has at least 4 characters and grows beyond 4 characters exactly once
`existingCount ≥ 9999`. -/
theorem next_sequence_number_spec :
    (∀ n : Nat, (next_sequence_number n).data =
      List.replicate (4 - (Nat.repr (n + 1)).data.length) '0' ++ (Nat.repr (n + 1)).data) ∧
    next_sequence_number 0 = "0001" ∧
    next_sequence_number 9998 = "9999" ∧
    next_sequence_number 9999 = "10000" ∧
    (∀ n : Nat, 4 ≤ (next_sequence_number n).data.length) ∧
    (∀ n : Nat, 9999 ≤ n → 4 < (next_sequence_number n).data.length) := by
  refine ⟨fun n => rfl, by decide, by decide, by decide, fun n => ?_, fun n hn => ?_⟩
  · show (List.replicate (4 - (Nat.repr (n + 1)).data.length) '0' ++
      (Nat.repr (n + 1)).data).length ≥ 4
    simp only [List.length_append, List.length_replicate]
    omega
  · show 4 < (List.replicate (4 - (Nat.repr (n + 1)).data.length) '0' ++
      (Nat.repr (n + 1)).data).length
    have h5 : 5 ≤ (Nat.repr (n + 1)).data.length :=
      repr_length_lower (n + 1) 4 (by omega)
    simp only [List.length_append, List.length_replicate]
    omega

/-- Witness for C9's conditional part at `existingCount = 9999`. -/
theorem next_sequence_number_spec_witness :
    (9999 : Nat) ≤ 9999 ∧ 4 < (next_sequence_number 9999).data.length :=
  ⟨le_refl _, next_sequence_number_spec.2.2.2.2.2 9999 (le_refl _)⟩

/-! ### Catalog model: the entities of `models.py` and the SQLAlchemy session
as the importer uses them.  Columns the importer never reads (entity names,
`is_home`, timestamps, the `Transaction` table) are omitted; the float columns
`unit_cost`/`unit_price` are the constant `0.0` everywhere the importer
touches them and are omitted likewise. -/

structure ProductVariant where
  id : Nat
  category : String
  size : String
  stretch : Bool
  framing : Bool
deriving DecidableEq

structure Painting where
  id : Nat
  code : String
  variants : List ProductVariant
deriving DecidableEq

structure Location where
  id : Nat
  code : String
deriving DecidableEq

structure InventoryItem where
  painting_id : Nat
  variant_id : Nat
  location_id : Nat
  serial_number : String
  quantity : Int
deriving DecidableEq

/-- The database session: catalog tables and inventory rows as lists (rows
added by `db.add` are appended at once — SQLAlchemy's autoflush makes pending
rows visible to the later queries of the same call), plus a count of issued
`commit()` calls. -/
structure Db where
  paintings : List Painting
  locations : List Location
  items : List InventoryItem
  commits : Nat
deriving DecidableEq

/-- `db.query(models.Painting).filter_by(code=..).first()`. -/
def findPaintingByCode (db : Db) (code : String) : Option Painting :=
  db.paintings.find? (fun p => p.code == code)

/-- `db.query(models.Location).filter_by(code=..).first()`. -/
def findLocationByCode (db : Db) (code : String) : Option Location :=
  db.locations.find? (fun l => l.code == code)

/-- `db.query(models.InventoryItem).filter(serial_number.like(pre + "%")).count()`:
the pattern's stem is `PTG-<code>-` whose characters contain no SQL wildcard
at every call site (the code is uppercase alphanumeric there), so `like` is a
prefix test. -/
def countSerialPrefix (db : Db) (pre : String) : Nat :=
  (db.items.filter (fun it => pre.data.isPrefixOf it.serial_number.data)).length

/-- `db.query(models.InventoryItem).filter_by(serial_number=..).first()`. -/
def findItemBySerial (db : Db) (serial : String) : Option InventoryItem :=
  db.items.find? (fun it => it.serial_number == serial)

/-- One worksheet row as the row loop sees it: `str(cell)` for the three text
columns (before any stripping), and the `_normalize_int` coercions of the
`stocked`/`sold`/`quantity` cells.  Every cell value reaches the loop only
through these total coercions (`str` yields some string, `_normalize_int`
some integer, `0` for unparseable cells), so quantifying over the coerced
values covers every possible worksheet. -/
structure InputRow where
  foreign_key : String
  item_desc : String
  location : String
  stocked : Int
  sold : Int
  quantity : Int
deriving DecidableEq

/-- `importer.ImportRow`. -/
structure ImportRow where
  row_number : Nat
  serial_number : String
  item_desc : String
  painting_code : Option String
  variant_code : Option String
  location_code : Option String
  stocked : Int
  sold : Int
  quantity : Int
  errors : List String
deriving DecidableEq

/-- `importer.ImportResult`. -/
structure ImportResult where
  dry_run : Bool
  imported : Nat
  failed : Nat
  rows : List ImportRow
deriving DecidableEq

/-- Python truthiness of an `Optional[str]`: `None` and `""` are falsy. -/
def truthy : Option String → Bool
  | none => false
  | some s => !s.data.isEmpty

/-- `importer.EXPECTED_COLUMNS` (a Python `set`; its iteration order is
immaterial because the only consumer sorts what it extracts). -/
def EXPECTED_COLUMNS : List String :=
  ["foreign_key", "item_desc", "location", "stocked", "sold", "quantity"]

/-- `_load_dataframe`'s header normalisation:
`str(col).strip().lower().replace(" ", "_")`. -/
def normalize_column (s : String) : String :=
  pyReplace (pyLower (pyStrip s)) " " "_"

/-- `importer._validate_columns`. -/
def validate_columns (columns : List String) : List String :=
  EXPECTED_COLUMNS.filter (fun col => !columns.contains col)

/-- Python `sorted` on strings (ascending lexicographic by code point). -/
def pySorted (l : List String) : List String :=
  l.insertionSort (fun a b => a ≤ b)

/-- Python `", ".join`. -/
def joinCommaSpace : List String → String
  | [] => ""
  | [s] => s
  | s :: rest => s ++ ", " ++ joinCommaSpace rest

/-- Lines 105–114 of `importer.py`: the empty-serial error, or the structural
parse whose components provide the three resolved codes. -/
def resolveSerial (serial_raw : String) : List String × Option SerialComponents :=
  if serial_raw = "" then (["Serial number is required"], none)
  else
    match parse_serial_number serial_raw with
    | .ok components => ([], some components)
    | .error e => ([e], none)

/-- Lines 116–119: cross-check of the `location` column against the parsed
location code; when no code was parsed and a provided code exists, the
provided code is adopted. -/
def applyLocationColumn (location_code : Option String) (provided : String) :
    List String × Option String :=
  if truthy location_code = true ∧ provided ≠ "" ∧ location_code ≠ some provided then
    (["Location column does not match serial number"], location_code)
  else if truthy location_code = false ∧ provided ≠ "" then
    ([], some provided)
  else ([], location_code)

/-- Lines 121–125 (`if painting_code:` guards on Python truthiness; under it
the code is the wrapped string, unwrapped here by `getD`). -/
def resolvePainting (db : Db) (painting_code : Option String) :
    Option Painting × List String :=
  if truthy painting_code = true then
    match findPaintingByCode db (painting_code.getD "") with
    | some painting => (some painting, [])
    | none =>
      (none, ["Painting code \x27" ++ painting_code.getD "" ++ "\x27 not found"])
  else (none, [])

/-- Lines 127–142: first variant of the painting whose recomputed short code
equals the parsed variant code (`for`/`break` is `find?`). -/
def resolveVariant (painting : Option Painting)
    (variant_code painting_code : Option String) :
    Option ProductVariant × List String :=
  match painting with
  | some P =>
    if truthy variant_code = true then
      match P.variants.find? (fun cand =>
          build_variant_code cand.category cand.size cand.stretch cand.framing ==
            variant_code.getD "") with
      | some V => (some V, [])
      | none =>
        (none, ["Variant code \x27" ++ variant_code.getD "" ++
          "\x27 not mapped to painting \x27" ++ painting_code.getD "" ++ "\x27"])
    else (none, [])
  | none => (none, [])

/-- Lines 144–148. -/
def resolveLocation (db : Db) (location_code : Option String) :
    Option Location × List String :=
  if truthy location_code = true then
    match findLocationByCode db (location_code.getD "") with
    | some L => (some L, [])
    | none =>
      (none, ["Location code \x27" ++ location_code.getD "" ++ "\x27 not found"])
  else (none, [])

/-- Lines 150–183, the block guarded by
`painting and variant and location and not errors`: build the expected
components, validate, count matching-prefix inventory, substitute the `0000`
placeholder via `str.replace` (which rewrites every occurrence), and check
for a duplicate serial.  The source re-parses `serial_raw` at lines 158 and
165 after the parse at line 109 succeeded; `parse_serial_number` is a pure
function of its argument, so the re-parse returns the same components `c`,
which the caller passes in directly. -/
def finalizeSerial (db : Db) (serial_raw : String) (c : SerialComponents)
    (P : Painting) (V : ProductVariant) (L : Location) : String × List String :=
  let expected : SerialComponents :=
    ⟨pyUpper P.code,
     build_variant_code V.category V.size V.stretch V.framing,
     pyUpper L.code, c.sequence⟩
  match validate_serial_against_components serial_raw expected with
  | .error e => (serial_raw, [e])
  | .ok _ =>
    let existing_count := countSerialPrefix db ("PTG-" ++ pyUpper P.code ++ "-")
    let inventory_serial :=
      if c.sequence = "0000" then
        pyReplace expected.serial_number c.sequence (next_sequence_number existing_count)
      else serial_raw
    match findItemBySerial db inventory_serial with
    | some _ => (inventory_serial, ["Serial number already exists in inventory"])
    | none => (inventory_serial, [])

/-- Result of one iteration of the row loop: the recorded `ImportRow`, the
session state after the row, and the row's contribution to the `imported`
and `failed` counters. -/
structure RowStep where
  row : ImportRow
  db : Db
  imported : Nat
  failed : Nat
deriving DecidableEq

/-- The local variables of one iteration of the row loop (lines 90–196),
packaged so that the iteration can be reasoned about stage by stage. -/
structure RowCtx where
  serial_raw : String
  item_desc : String
  stocked : Int
  sold : Int
  quantity : Int
  provided_location_code : String
  sr : List String × Option SerialComponents
  painting_code : Option String
  variant_code : Option String
  lc : List String × Option String
  location_code : Option String
  rp : Option Painting × List String
  rv : Option ProductVariant × List String
  rl : Option Location × List String
  errors0 : List String
  fin : String × List String
  errors : List String
deriving DecidableEq

/-- The straight-line part of one iteration of the
`for idx, row in df.iterrows()` loop: extraction and coercion of the cells,
the serial parse, the location-column cross-check, the three catalog
resolutions, and the validation/sequence/duplicate block.  The `fin` match
mirrors the guard `painting and variant and location and not errors`; it
additionally requires the parsed components, which is no extra condition — a
painting is resolved only when a painting code was parsed. -/
def mkRowCtx (db : Db) (r : InputRow) : RowCtx :=
  let serial_raw := pyStrip r.foreign_key
  let item_desc := pyStrip r.item_desc
  let stocked := r.stocked
  let sold := r.sold
  let quantity :=
    if r.quantity = 0 ∧ (stocked ≠ 0 ∨ sold ≠ 0) then max (stocked - sold) 0
    else r.quantity
  let provided_location_code := pyUpper (pyStrip r.location)
  let sr := resolveSerial serial_raw
  let painting_code := sr.2.map SerialComponents.painting_code
  let variant_code := sr.2.map SerialComponents.variant_code
  let lc := applyLocationColumn (sr.2.map SerialComponents.location_code)
    provided_location_code
  let location_code := lc.2
  let rp := resolvePainting db painting_code
  let rv := resolveVariant rp.1 variant_code painting_code
  let rl := resolveLocation db location_code
  let errors0 := sr.1 ++ lc.1 ++ rp.2 ++ rv.2 ++ rl.2
  let fin :=
    match rp.1, rv.1, rl.1, sr.2 with
    | some P, some V, some L, some c =>
      if errors0 = [] then finalizeSerial db serial_raw c P V L
      else (serial_raw, [])
    | _, _, _, _ => (serial_raw, [])
  let errors := errors0 ++ fin.2
  ⟨serial_raw, item_desc, stocked, sold, quantity, provided_location_code,
    sr, painting_code, variant_code, lc, location_code, rp, rv, rl,
    errors0, fin, errors⟩

/-- One iteration of the row loop (lines 90–215): record the `ImportRow` and
take the `if not errors and painting and variant and location / elif errors`
decision, persisting only an accepted row of a non-dry run. -/
def process_row (db : Db) (dry_run : Bool) (idx : Nat) (r : InputRow) : RowStep :=
  let ctx := mkRowCtx db r
  let import_row : ImportRow :=
    ⟨idx + 2, ctx.fin.1, ctx.item_desc, ctx.painting_code, ctx.variant_code,
      ctx.location_code, ctx.stocked, ctx.sold, ctx.quantity, ctx.errors⟩
  match ctx.rp.1, ctx.rv.1, ctx.rl.1 with
  | some P, some V, some L =>
    if ctx.errors = [] then
      if dry_run then ⟨import_row, db, 1, 0⟩
      else
        ⟨import_row,
          ⟨db.paintings, db.locations,
            db.items ++ [⟨P.id, V.id, L.id, ctx.fin.1, ctx.quantity⟩], db.commits⟩,
          1, 0⟩
    else ⟨import_row, db, 0, 1⟩
  | _, _, _ =>
    if ctx.errors = [] then ⟨import_row, db, 0, 0⟩ else ⟨import_row, db, 0, 1⟩

/-- Accumulated result of the row loop. -/
structure BatchStep where
  rows : List ImportRow
  db : Db
  imported : Nat
  failed : Nat
deriving DecidableEq

/-- The row loop itself, threading the session state left to right. -/
def process_rows (db : Db) (dry_run : Bool) (idx : Nat) :
    List InputRow → BatchStep
  | [] => ⟨[], db, 0, 0⟩
  | r :: rs =>
    let st := process_row db dry_run idx r
    let rest := process_rows st.db dry_run (idx + 1) rs
    ⟨st.row :: rest.rows, rest.db, st.imported + rest.imported,
      st.failed + rest.failed⟩

/-- `db.commit()`. -/
def commitDb (db : Db) : Db :=
  ⟨db.paintings, db.locations, db.items, db.commits + 1⟩

/-- `importer.process_inventory_upload`, starting from the loaded dataframe
(raw column headers plus rows); the `ValueError` raised on missing columns is
`Except.error`. -/
def process_inventory_upload (db : Db) (raw_columns : List String)
    (table : List InputRow) (dry_run : Bool) : Except String (ImportResult × Db) :=
  let columns := raw_columns.map normalize_column
  let missing := validate_columns columns
  if missing ≠ [] then
    .error ("Missing required columns: " ++ joinCommaSpace (pySorted missing))
  else
    let b := process_rows db dry_run 0 table
    let finalDb := if dry_run then b.db else commitDb b.db
    .ok (⟨dry_run, b.imported, b.failed, b.rows⟩, finalDb)

/-! ### Stage lemmas for the row loop -/

theorem parse_error_eq {s e : String} (h : parse_serial_number s = .error e) :
    e = SERIAL_FORMAT_MESSAGE := by
  unfold parse_serial_number at h
  split at h
  · split at h
    · simp at h
    · simp only [Except.error.injEq] at h
      exact h.symm
  · simp only [Except.error.injEq] at h
    exact h.symm

theorem parse_ok_s_ne {s : String} {c : SerialComponents}
    (h : parse_serial_number s = .ok c) : s ≠ "" := by
  intro he
  subst he
  exact absurd h (by simp [show parse_serial_number "" = .error SERIAL_FORMAT_MESSAGE from rfl])

theorem parse_ok_ne_nil {s : String} {c : SerialComponents}
    (h : parse_serial_number s = .ok c) :
    c.painting_code.data ≠ [] ∧ c.variant_code.data ≠ [] ∧
      c.location_code.data ≠ [] := by
  obtain ⟨_, hp2, _, _, hv2, _, _, hl2, _, _, _⟩ := parse_ok_inv h
  refine ⟨?_, ?_, ?_⟩
  · intro he; rw [he] at hp2; simp at hp2
  · intro he; rw [he] at hv2; simp at hv2
  · intro he; rw [he] at hl2; simp at hl2

theorem parse_ok_upper {s : String} {c : SerialComponents}
    (h : parse_serial_number s = .ok c) :
    pyUpper c.painting_code = c.painting_code ∧
      pyUpper c.location_code = c.location_code := by
  obtain ⟨hpA, _, _, _, _, _, hlA, _, _, _, _⟩ := parse_ok_inv h
  exact ⟨pyUpper_eq_self hpA, pyUpper_eq_self hlA⟩

theorem truthy_some_of_ne {s : String} (h : s.data ≠ []) : truthy (some s) = true := by
  simp [truthy, List.isEmpty_iff, h]

theorem truthy_isSome {o : Option String} (h : truthy o = true) : o.isSome = true := by
  cases o with
  | none => simp [truthy] at h
  | some s => rfl

theorem findPaintingByCode_code {db : Db} {pc : String} {P : Painting}
    (h : findPaintingByCode db pc = some P) : P.code = pc := by
  unfold findPaintingByCode at h
  simpa using List.find?_some h

theorem findLocationByCode_code {db : Db} {lc : String} {L : Location}
    (h : findLocationByCode db lc = some L) : L.code = lc := by
  unfold findLocationByCode at h
  simpa using List.find?_some h

theorem find_variant_code {P : Painting} {vc : String} {V : ProductVariant}
    (h : P.variants.find? (fun cand =>
      build_variant_code cand.category cand.size cand.stretch cand.framing == vc) =
      some V) :
    build_variant_code V.category V.size V.stretch V.framing = vc := by
  simpa using List.find?_some h

theorem validate_ok_of_eq {s : String} {expected c : SerialComponents}
    (hp : parse_serial_number s = .ok c)
    (h1 : c.painting_code = expected.painting_code)
    (h2 : c.variant_code = expected.variant_code)
    (h3 : c.location_code = expected.location_code) :
    validate_serial_against_components s expected = .ok () := by
  unfold validate_serial_against_components
  rw [hp]
  simp [h1, h2, h3]

theorem resolveSerial_shapes (s : String) :
    (s = "" ∧ resolveSerial s = (["Serial number is required"], none)) ∨
    (∃ c, parse_serial_number s = .ok c ∧ resolveSerial s = ([], some c)) ∨
    resolveSerial s = ([SERIAL_FORMAT_MESSAGE], none) := by
  by_cases hs : s = ""
  · exact Or.inl ⟨hs, by unfold resolveSerial; rw [if_pos hs]⟩
  · cases hp : parse_serial_number s with
    | ok c =>
      refine Or.inr (Or.inl ⟨c, rfl, ?_⟩)
      unfold resolveSerial
      rw [if_neg hs, hp]
    | error e =>
      refine Or.inr (Or.inr ?_)
      unfold resolveSerial
      rw [if_neg hs, hp, parse_error_eq hp]

theorem applyLocationColumn_cases (loc : Option String) (prov : String) :
    applyLocationColumn loc prov =
      (["Location column does not match serial number"], loc) ∨
    (truthy loc = false ∧ applyLocationColumn loc prov = ([], some prov)) ∨
    applyLocationColumn loc prov = ([], loc) := by
  unfold applyLocationColumn
  split
  · exact Or.inl rfl
  · split
    · next h => exact Or.inr (Or.inl ⟨h.1, rfl⟩)
    · exact Or.inr (Or.inr rfl)

theorem resolvePainting_cases (db : Db) (pc : Option String) :
    (truthy pc = false ∧ resolvePainting db pc = (none, [])) ∨
    (∃ P, truthy pc = true ∧ findPaintingByCode db (pc.getD "") = some P ∧
      resolvePainting db pc = (some P, [])) ∨
    (truthy pc = true ∧ findPaintingByCode db (pc.getD "") = none ∧
      resolvePainting db pc = (none,
        ["Painting code \x27" ++ pc.getD "" ++ "\x27 not found"])) := by
  by_cases h : truthy pc = true
  · cases hf : findPaintingByCode db (pc.getD "") with
    | some P =>
      refine Or.inr (Or.inl ⟨P, h, rfl, ?_⟩)
      unfold resolvePainting
      rw [if_pos h, hf]
    | none =>
      refine Or.inr (Or.inr ⟨h, rfl, ?_⟩)
      unfold resolvePainting
      rw [if_pos h, hf]
  · refine Or.inl ⟨by simpa using h, ?_⟩
    unfold resolvePainting
    rw [if_neg h]

theorem resolveVariant_cases (po : Option Painting) (vc pcc : Option String) :
    (po = none ∧ resolveVariant po vc pcc = (none, [])) ∨
    (∃ P, po = some P ∧ truthy vc = false ∧
      resolveVariant po vc pcc = (none, [])) ∨
    (∃ P V, po = some P ∧ truthy vc = true ∧
      P.variants.find? (fun cand => build_variant_code cand.category cand.size
        cand.stretch cand.framing == vc.getD "") = some V ∧
      resolveVariant po vc pcc = (some V, [])) ∨
    (∃ P, po = some P ∧ truthy vc = true ∧
      P.variants.find? (fun cand => build_variant_code cand.category cand.size
        cand.stretch cand.framing == vc.getD "") = none ∧
      resolveVariant po vc pcc = (none,
        ["Variant code \x27" ++ vc.getD "" ++ "\x27 not mapped to painting \x27" ++
          pcc.getD "" ++ "\x27"])) := by
  cases po with
  | none => exact Or.inl ⟨rfl, rfl⟩
  | some P =>
    by_cases h : truthy vc = true
    · cases hf : P.variants.find? (fun cand => build_variant_code cand.category
          cand.size cand.stretch cand.framing == vc.getD "") with
      | some V =>
        refine Or.inr (Or.inr (Or.inl ⟨P, V, rfl, h, hf, ?_⟩))
        simp only [resolveVariant]
        rw [if_pos h, hf]
      | none =>
        refine Or.inr (Or.inr (Or.inr ⟨P, rfl, h, hf, ?_⟩))
        simp only [resolveVariant]
        rw [if_pos h, hf]
    · refine Or.inr (Or.inl ⟨P, rfl, by simpa using h, ?_⟩)
      simp only [resolveVariant]
      rw [if_neg h]

theorem resolveLocation_cases (db : Db) (lc : Option String) :
    (truthy lc = false ∧ resolveLocation db lc = (none, [])) ∨
    (∃ L, truthy lc = true ∧ findLocationByCode db (lc.getD "") = some L ∧
      resolveLocation db lc = (some L, [])) ∨
    (truthy lc = true ∧ findLocationByCode db (lc.getD "") = none ∧
      resolveLocation db lc = (none,
        ["Location code \x27" ++ lc.getD "" ++ "\x27 not found"])) := by
  by_cases h : truthy lc = true
  · cases hf : findLocationByCode db (lc.getD "") with
    | some L =>
      refine Or.inr (Or.inl ⟨L, h, rfl, ?_⟩)
      unfold resolveLocation
      rw [if_pos h, hf]
    | none =>
      refine Or.inr (Or.inr ⟨h, rfl, ?_⟩)
      unfold resolveLocation
      rw [if_pos h, hf]
  · refine Or.inl ⟨by simpa using h, ?_⟩
    unfold resolveLocation
    rw [if_neg h]

/-! ### Projections of `mkRowCtx` (all definitional) -/

theorem ctx_serial_raw (db : Db) (r : InputRow) :
    (mkRowCtx db r).serial_raw = pyStrip r.foreign_key := rfl

theorem ctx_sr (db : Db) (r : InputRow) :
    (mkRowCtx db r).sr = resolveSerial (pyStrip r.foreign_key) := rfl

theorem ctx_painting_code (db : Db) (r : InputRow) :
    (mkRowCtx db r).painting_code =
      (mkRowCtx db r).sr.2.map SerialComponents.painting_code := rfl

theorem ctx_variant_code (db : Db) (r : InputRow) :
    (mkRowCtx db r).variant_code =
      (mkRowCtx db r).sr.2.map SerialComponents.variant_code := rfl

theorem ctx_lc (db : Db) (r : InputRow) :
    (mkRowCtx db r).lc = applyLocationColumn
      ((mkRowCtx db r).sr.2.map SerialComponents.location_code)
      (pyUpper (pyStrip r.location)) := rfl

theorem ctx_location_code (db : Db) (r : InputRow) :
    (mkRowCtx db r).location_code = (mkRowCtx db r).lc.2 := rfl

theorem ctx_rp (db : Db) (r : InputRow) :
    (mkRowCtx db r).rp = resolvePainting db (mkRowCtx db r).painting_code := rfl

theorem ctx_rv (db : Db) (r : InputRow) :
    (mkRowCtx db r).rv = resolveVariant (mkRowCtx db r).rp.1
      (mkRowCtx db r).variant_code (mkRowCtx db r).painting_code := rfl

theorem ctx_rl (db : Db) (r : InputRow) :
    (mkRowCtx db r).rl = resolveLocation db (mkRowCtx db r).location_code := rfl

theorem ctx_errors0 (db : Db) (r : InputRow) :
    (mkRowCtx db r).errors0 = (mkRowCtx db r).sr.1 ++ (mkRowCtx db r).lc.1 ++
      (mkRowCtx db r).rp.2 ++ (mkRowCtx db r).rv.2 ++ (mkRowCtx db r).rl.2 := rfl

theorem ctx_fin (db : Db) (r : InputRow) :
    (mkRowCtx db r).fin =
      (match (mkRowCtx db r).rp.1, (mkRowCtx db r).rv.1, (mkRowCtx db r).rl.1,
          (mkRowCtx db r).sr.2 with
      | some P, some V, some L, some c =>
        if (mkRowCtx db r).errors0 = [] then
          finalizeSerial db (mkRowCtx db r).serial_raw c P V L
        else ((mkRowCtx db r).serial_raw, [])
      | _, _, _, _ => ((mkRowCtx db r).serial_raw, [])) := rfl

theorem ctx_errors (db : Db) (r : InputRow) :
    (mkRowCtx db r).errors = (mkRowCtx db r).errors0 ++ (mkRowCtx db r).fin.2 := rfl

/-- If the first five stages of a row produced no error, then the serial
parsed, all three catalog entities resolved, their codes agree with the parsed
segments, and the final block ran. -/
theorem ctx_errors0_inversion (db : Db) (r : InputRow)
    (h : (mkRowCtx db r).errors0 = []) :
    ∃ c P V L,
      (mkRowCtx db r).sr = ([], some c) ∧
      parse_serial_number (pyStrip r.foreign_key) = .ok c ∧
      (mkRowCtx db r).painting_code = some c.painting_code ∧
      (mkRowCtx db r).variant_code = some c.variant_code ∧
      (mkRowCtx db r).location_code = some c.location_code ∧
      (mkRowCtx db r).rp = (some P, []) ∧ P.code = c.painting_code ∧
      (mkRowCtx db r).rv = (some V, []) ∧
        build_variant_code V.category V.size V.stretch V.framing = c.variant_code ∧
      (mkRowCtx db r).rl = (some L, []) ∧ L.code = c.location_code ∧
      (mkRowCtx db r).fin = finalizeSerial db (pyStrip r.foreign_key) c P V L := by
  have h0 := h
  rw [ctx_errors0] at h0
  simp only [List.append_eq_nil] at h0
  obtain ⟨⟨⟨⟨hsr1, hlc1⟩, hrp2⟩, hrv2⟩, hrl2⟩ := h0
  -- stage 1: the serial parsed
  rcases resolveSerial_shapes (pyStrip r.foreign_key) with ⟨_, hsr⟩ | ⟨c, hp, hsr⟩ | hsr
  · rw [ctx_sr, hsr] at hsr1; simp at hsr1
  rotate_left
  · rw [ctx_sr, hsr] at hsr1; simp at hsr1
  have hne := parse_ok_ne_nil hp
  have hsr2 : (mkRowCtx db r).sr.2 = some c := by rw [ctx_sr, hsr]
  have hcp : (mkRowCtx db r).painting_code = some c.painting_code := by
    rw [ctx_painting_code, hsr2]; rfl
  have hcv : (mkRowCtx db r).variant_code = some c.variant_code := by
    rw [ctx_variant_code, hsr2]; rfl
  have hloc_in : (mkRowCtx db r).sr.2.map SerialComponents.location_code =
      some c.location_code := by rw [hsr2]; rfl
  -- stage 2: location column kept the parsed code
  rcases applyLocationColumn_cases
      ((mkRowCtx db r).sr.2.map SerialComponents.location_code)
      (pyUpper (pyStrip r.location)) with hlc | ⟨htr, hlc⟩ | hlc
  · rw [ctx_lc, hlc] at hlc1; simp at hlc1
  · rw [hloc_in, truthy_some_of_ne hne.2.2] at htr; simp at htr
  have hlcc : (mkRowCtx db r).location_code = some c.location_code := by
    rw [ctx_location_code, ctx_lc, hlc, hloc_in]
  -- stage 3: painting resolved
  rcases resolvePainting_cases db (mkRowCtx db r).painting_code with
    ⟨htr, hrp⟩ | ⟨P, htr, hf, hrp⟩ | ⟨htr, hf, hrp⟩
  · rw [hcp, truthy_some_of_ne hne.1] at htr; simp at htr
  rotate_left
  · rw [ctx_rp, hrp] at hrp2; simp at hrp2
  have hPcode : P.code = c.painting_code := by
    have := findPaintingByCode_code hf
    rw [hcp] at this
    simpa using this
  have hrp1 : (mkRowCtx db r).rp.1 = some P := by rw [ctx_rp, hrp]
  have hrpP : (mkRowCtx db r).rp = (some P, []) := by rw [ctx_rp, hrp]
  -- stage 4: variant resolved
  rcases resolveVariant_cases (mkRowCtx db r).rp.1 (mkRowCtx db r).variant_code
      (mkRowCtx db r).painting_code with
    ⟨hpo, hrv⟩ | ⟨P', hpo, htr, hrv⟩ | ⟨P', V, hpo, htr, hf', hrv⟩ | ⟨P', hpo, htr, hf', hrv⟩
  · rw [hrp1] at hpo; simp at hpo
  · rw [hcv, truthy_some_of_ne hne.2.1] at htr; simp at htr
  rotate_left
  · rw [ctx_rv, hrv] at hrv2; simp at hrv2
  have hVcode : build_variant_code V.category V.size V.stretch V.framing =
      c.variant_code := by
    rw [hcv] at hf'
    simpa using find_variant_code hf'
  have hrvV : (mkRowCtx db r).rv = (some V, []) := by rw [ctx_rv, hrv]
  -- stage 5: location resolved
  rcases resolveLocation_cases db (mkRowCtx db r).location_code with
    ⟨htr, hrl⟩ | ⟨L, htr, hf'', hrl⟩ | ⟨htr, hf'', hrl⟩
  · rw [hlcc, truthy_some_of_ne hne.2.2] at htr; simp at htr
  rotate_left
  · rw [ctx_rl, hrl] at hrl2; simp at hrl2
  have hLcode : L.code = c.location_code := by
    have := findLocationByCode_code hf''
    rw [hlcc] at this
    simpa using this
  have hrlL : (mkRowCtx db r).rl = (some L, []) := by rw [ctx_rl, hrl]
  -- the final block
  have hfin : (mkRowCtx db r).fin =
      finalizeSerial db (pyStrip r.foreign_key) c P V L := by
    rw [ctx_fin, hrp1, hsr2]
    rw [show (mkRowCtx db r).rv.1 = some V from by rw [ctx_rv, hrv]]
    rw [show (mkRowCtx db r).rl.1 = some L from by rw [ctx_rl, hrl]]
    exact if_pos h
  exact ⟨c, P, V, L, hsr, hp, hcp, hcv, hlcc, hrpP, hPcode, hrvV, hVcode,
    hrlL, hLcode, hfin⟩

/-- Additional definitional projections of `mkRowCtx`. -/
theorem ctx_item_desc (db : Db) (r : InputRow) :
    (mkRowCtx db r).item_desc = pyStrip r.item_desc := rfl

theorem ctx_stocked (db : Db) (r : InputRow) :
    (mkRowCtx db r).stocked = r.stocked := rfl

theorem ctx_sold (db : Db) (r : InputRow) :
    (mkRowCtx db r).sold = r.sold := rfl

theorem ctx_quantity (db : Db) (r : InputRow) :
    (mkRowCtx db r).quantity =
      (if r.quantity = 0 ∧ (r.stocked ≠ 0 ∨ r.sold ≠ 0) then
        max (r.stocked - r.sold) 0 else r.quantity) := rfl

/-- The `ImportRow` recorded for a row, in terms of its loop variables. -/
def ctxImportRow (db : Db) (idx : Nat) (r : InputRow) : ImportRow :=
  ⟨idx + 2, (mkRowCtx db r).fin.1, (mkRowCtx db r).item_desc,
    (mkRowCtx db r).painting_code, (mkRowCtx db r).variant_code,
    (mkRowCtx db r).location_code, (mkRowCtx db r).stocked,
    (mkRowCtx db r).sold, (mkRowCtx db r).quantity, (mkRowCtx db r).errors⟩

/-- An error-free row is accepted: `imported` contribution 1, `failed` 0, and
the only session change is the `db.add` of a non-dry run. -/
theorem process_row_accept (db : Db) (dry : Bool) (idx : Nat) (r : InputRow)
    (h : (mkRowCtx db r).errors = []) :
    ∃ P V L, (mkRowCtx db r).rp = (some P, []) ∧
      (mkRowCtx db r).rv = (some V, []) ∧ (mkRowCtx db r).rl = (some L, []) ∧
      process_row db dry idx r =
        ⟨ctxImportRow db idx r,
          (if dry = true then db else
            ⟨db.paintings, db.locations,
              db.items ++ [⟨P.id, V.id, L.id, (mkRowCtx db r).fin.1,
                (mkRowCtx db r).quantity⟩], db.commits⟩),
          1, 0⟩ := by
  have h0 : (mkRowCtx db r).errors0 = [] := by
    have h' := h
    rw [ctx_errors] at h'
    exact (List.append_eq_nil.mp h').1
  obtain ⟨c, P, V, L, hsr, hp, hcp, hcv, hlcc, hrpP, hPc, hrvV, hVc, hrlL, hLc, hfin⟩ :=
    ctx_errors0_inversion db r h0
  refine ⟨P, V, L, hrpP, hrvV, hrlL, ?_⟩
  simp only [process_row]
  rw [show (mkRowCtx db r).rp.1 = some P from by rw [hrpP],
    show (mkRowCtx db r).rv.1 = some V from by rw [hrvV],
    show (mkRowCtx db r).rl.1 = some L from by rw [hrlL]]
  cases dry
  · exact if_pos h
  · exact if_pos h

/-- A row with at least one error is rejected: `failed` contribution 1 and the
session state is untouched. -/
theorem process_row_reject (db : Db) (dry : Bool) (idx : Nat) (r : InputRow)
    (h : ¬(mkRowCtx db r).errors = []) :
    process_row db dry idx r = ⟨ctxImportRow db idx r, db, 0, 1⟩ := by
  simp only [process_row]
  rcases hrp : (mkRowCtx db r).rp.1 with _ | P <;>
    rcases hrv : (mkRowCtx db r).rv.1 with _ | V <;>
    rcases hrl : (mkRowCtx db r).rl.1 with _ | L <;>
    exact if_neg h

/-- The recorded row always carries `idx + 2` and the loop's error list. -/
theorem process_row_row (db : Db) (dry : Bool) (idx : Nat) (r : InputRow) :
    (process_row db dry idx r).row = ctxImportRow db idx r := by
  by_cases h : (mkRowCtx db r).errors = []
  · obtain ⟨P, V, L, _, _, _, heq⟩ := process_row_accept db dry idx r h
    rw [heq]
  · rw [process_row_reject db dry idx r h]

/-- A dry run never changes the session state, row by row. -/
theorem process_row_dry_db (db : Db) (idx : Nat) (r : InputRow) :
    (process_row db true idx r).db = db := by
  by_cases h : (mkRowCtx db r).errors = []
  · obtain ⟨P, V, L, _, _, _, heq⟩ := process_row_accept db true idx r h
    rw [heq]
    rfl
  · rw [process_row_reject db true idx r h]

/-- The per-row accounting: exactly one of `imported`/`failed` is incremented,
according to whether the error list is empty. -/
theorem process_row_outcome (db : Db) (dry : Bool) (idx : Nat) (r : InputRow) :
    ((mkRowCtx db r).errors = [] ∧ (process_row db dry idx r).imported = 1 ∧
      (process_row db dry idx r).failed = 0) ∨
    ((mkRowCtx db r).errors ≠ [] ∧ (process_row db dry idx r).imported = 0 ∧
      (process_row db dry idx r).failed = 1) := by
  by_cases h : (mkRowCtx db r).errors = []
  · obtain ⟨P, V, L, _, _, _, heq⟩ := process_row_accept db dry idx r h
    rw [heq]
    exact Or.inl ⟨h, rfl, rfl⟩
  · rw [process_row_reject db dry idx r h]
    exact Or.inr ⟨h, rfl, rfl⟩

/-- An error-free row has all three codes resolved on its recorded row. -/
theorem ctx_no_errors_codes (db : Db) (r : InputRow)
    (h : (mkRowCtx db r).errors = []) :
    (mkRowCtx db r).painting_code.isSome = true ∧
    (mkRowCtx db r).variant_code.isSome = true ∧
    (mkRowCtx db r).location_code.isSome = true := by
  have h0 : (mkRowCtx db r).errors0 = [] := by
    have h' := h
    rw [ctx_errors] at h'
    exact (List.append_eq_nil.mp h').1
  obtain ⟨c, P, V, L, _, _, hcp, hcv, hlcc, _⟩ := ctx_errors0_inversion db r h0
  rw [hcp, hcv, hlcc]
  exact ⟨rfl, rfl, rfl⟩

/-- The final block can only add the duplicate-serial error: under the guard,
validation always succeeds. -/
theorem finalizeSerial_errors (db : Db) (s : String) (c : SerialComponents)
    (P : Painting) (V : ProductVariant) (L : Location)
    (hp : parse_serial_number s = .ok c)
    (hP : P.code = c.painting_code)
    (hV : build_variant_code V.category V.size V.stretch V.framing = c.variant_code)
    (hL : L.code = c.location_code) :
    (finalizeSerial db s c P V L).2 = [] ∨
    (finalizeSerial db s c P V L).2 = ["Serial number already exists in inventory"] := by
  have hup := parse_ok_upper hp
  have hval : validate_serial_against_components s
      ⟨pyUpper P.code, build_variant_code V.category V.size V.stretch V.framing,
        pyUpper L.code, c.sequence⟩ = .ok () := by
    apply validate_ok_of_eq hp
    · show c.painting_code = pyUpper P.code
      rw [hP, hup.1]
    · exact hV.symm
    · show c.location_code = pyUpper L.code
      rw [hL, hup.2]
  simp only [finalizeSerial]
  rw [hval]
  split
  · rename_i e heq
    exact absurd heq (by simp)
  · split
    · exact Or.inr rfl
    · exact Or.inl rfl

/-- The shapes a row-level error message can take (the three mismatch
messages of `validate_serial_against_components` are absent). -/
def RowMessageOk (m : String) : Prop :=
  m = "Serial number is required" ∨ m = SERIAL_FORMAT_MESSAGE ∨
  m = "Location column does not match serial number" ∨
  (∃ pc, m = "Painting code \x27" ++ pc ++ "\x27 not found") ∨
  (∃ vc pc, m = "Variant code \x27" ++ vc ++ "\x27 not mapped to painting \x27" ++
    pc ++ "\x27") ∨
  (∃ lc, m = "Location code \x27" ++ lc ++ "\x27 not found") ∨
  m = "Serial number already exists in inventory"

theorem process_row_messages (db : Db) (dry : Bool) (idx : Nat) (r : InputRow) :
    ∀ m ∈ (process_row db dry idx r).row.errors, RowMessageOk m := by
  intro m hm
  rw [process_row_row] at hm
  have hm' : m ∈ (mkRowCtx db r).errors0 ++ (mkRowCtx db r).fin.2 := by
    rw [← ctx_errors]
    exact hm
  rcases List.mem_append.mp hm' with hm0 | hmf
  · rw [ctx_errors0] at hm0
    simp only [List.mem_append] at hm0
    rcases hm0 with (((h1 | h2) | h3) | h4) | h5
    · rcases resolveSerial_shapes (pyStrip r.foreign_key) with
        ⟨_, hsr⟩ | ⟨c, _, hsr⟩ | hsr <;> rw [ctx_sr, hsr] at h1 <;> simp at h1
      · exact Or.inl h1
      · rw [h1]
        exact Or.inr (Or.inl rfl)
    · rcases applyLocationColumn_cases
          ((mkRowCtx db r).sr.2.map SerialComponents.location_code)
          (pyUpper (pyStrip r.location)) with hlc | ⟨_, hlc⟩ | hlc <;>
        rw [ctx_lc, hlc] at h2 <;> simp at h2
      rw [h2]
      exact Or.inr (Or.inr (Or.inl rfl))
    · rcases resolvePainting_cases db (mkRowCtx db r).painting_code with
        ⟨_, hrp⟩ | ⟨P, _, _, hrp⟩ | ⟨_, _, hrp⟩ <;>
        rw [ctx_rp, hrp] at h3 <;> simp at h3
      rw [h3]
      exact Or.inr (Or.inr (Or.inr (Or.inl ⟨_, rfl⟩)))
    · rcases resolveVariant_cases (mkRowCtx db r).rp.1 (mkRowCtx db r).variant_code
          (mkRowCtx db r).painting_code with
        ⟨_, hrv⟩ | ⟨P', _, _, hrv⟩ | ⟨P', V, _, _, _, hrv⟩ | ⟨P', _, _, _, hrv⟩ <;>
        rw [ctx_rv, hrv] at h4 <;> simp at h4
      rw [h4]
      exact Or.inr (Or.inr (Or.inr (Or.inr (Or.inl ⟨_, _, rfl⟩))))
    · rcases resolveLocation_cases db (mkRowCtx db r).location_code with
        ⟨_, hrl⟩ | ⟨L, _, _, hrl⟩ | ⟨_, _, hrl⟩ <;>
        rw [ctx_rl, hrl] at h5 <;> simp at h5
      rw [h5]
      exact Or.inr (Or.inr (Or.inr (Or.inr (Or.inr (Or.inl ⟨_, rfl⟩)))))
  · by_cases h0 : (mkRowCtx db r).errors0 = []
    · obtain ⟨c, P, V, L, _, hp, _, _, _, _, hPc, _, hVc, _, hLc, hfin⟩ :=
        ctx_errors0_inversion db r h0
      rw [hfin] at hmf
      rcases finalizeSerial_errors db (pyStrip r.foreign_key) c P V L hp hPc hVc hLc with
        he | he <;> rw [he] at hmf <;> simp at hmf
      rw [hmf]
      exact Or.inr (Or.inr (Or.inr (Or.inr (Or.inr (Or.inr rfl)))))
    · have hfin2 : (mkRowCtx db r).fin.2 = [] := by
        rw [ctx_fin]
        split
        · rw [if_neg h0]
        · rfl
      rw [hfin2] at hmf
      simp at hmf

/-! ### The row loop as a whole -/

theorem process_rows_dry_db (db : Db) (idx : Nat) (table : List InputRow) :
    (process_rows db true idx table).db = db := by
  induction table generalizing db idx with
  | nil => rfl
  | cons r rs ih =>
    show (process_rows (process_row db true idx r).db true (idx + 1) rs).db = db
    rw [process_row_dry_db]
    exact ih db (idx + 1)

theorem process_rows_append (db : Db) (dry : Bool) (idx : Nat) (xs ys : List InputRow) :
    process_rows db dry idx (xs ++ ys) =
      ⟨(process_rows db dry idx xs).rows ++
        (process_rows (process_rows db dry idx xs).db dry (idx + xs.length) ys).rows,
        (process_rows (process_rows db dry idx xs).db dry (idx + xs.length) ys).db,
        (process_rows db dry idx xs).imported +
          (process_rows (process_rows db dry idx xs).db dry (idx + xs.length) ys).imported,
        (process_rows db dry idx xs).failed +
          (process_rows (process_rows db dry idx xs).db dry (idx + xs.length) ys).failed⟩ := by
  induction xs generalizing db idx with
  | nil => simp [process_rows]
  | cons x xs ih =>
    simp only [List.cons_append, process_rows, List.length_cons, List.append_eq]
    rw [ih]
    have hidx : idx + 1 + xs.length = idx + (xs.length + 1) := by omega
    rw [hidx]
    simp [List.append_assoc, Nat.add_assoc]

theorem process_rows_spec (db : Db) (dry : Bool) (idx : Nat) (table : List InputRow) :
    (process_rows db dry idx table).rows.length = table.length ∧
    (process_rows db dry idx table).imported + (process_rows db dry idx table).failed =
      table.length ∧
    (process_rows db dry idx table).imported =
      ((process_rows db dry idx table).rows.filter
        (fun row => row.errors.isEmpty)).length ∧
    (process_rows db dry idx table).failed =
      ((process_rows db dry idx table).rows.filter
        (fun row => !row.errors.isEmpty)).length ∧
    (∀ i (hi : i < (process_rows db dry idx table).rows.length),
      ((process_rows db dry idx table).rows.get ⟨i, hi⟩).row_number = idx + i + 2) ∧
    ∀ row ∈ (process_rows db dry idx table).rows, row.errors = [] →
      row.painting_code.isSome = true ∧ row.variant_code.isSome = true ∧
        row.location_code.isSome = true := by
  induction table generalizing db idx with
  | nil =>
    refine ⟨rfl, rfl, rfl, rfl, ?_, ?_⟩
    · intro i hi
      exact absurd hi (by simp [process_rows])
    · intro row hrow
      exact absurd hrow (by simp [process_rows])
  | cons r rs ih =>
    obtain ⟨ih1, ih2, ih3, ih4, ih5, ih6⟩ := ih (process_row db dry idx r).db (idx + 1)
    have hrow := process_row_row db dry idx r
    have hre : (process_row db dry idx r).row.errors = (mkRowCtx db r).errors := by
      rw [hrow]
      rfl
    refine ⟨?_, ?_, ?_, ?_, ?_, ?_⟩
    · show ((process_row db dry idx r).row ::
        (process_rows (process_row db dry idx r).db dry (idx + 1) rs).rows).length =
          (r :: rs).length
      simp [ih1]
    · show (process_row db dry idx r).imported +
          (process_rows (process_row db dry idx r).db dry (idx + 1) rs).imported +
        ((process_row db dry idx r).failed +
          (process_rows (process_row db dry idx r).db dry (idx + 1) rs).failed) =
        (r :: rs).length
      rcases process_row_outcome db dry idx r with ⟨_, hi1, hf0⟩ | ⟨_, hi0, hf1⟩ <;>
        · simp only [List.length_cons]
          omega
    · show (process_row db dry idx r).imported +
          (process_rows (process_row db dry idx r).db dry (idx + 1) rs).imported =
        (((process_row db dry idx r).row ::
          (process_rows (process_row db dry idx r).db dry (idx + 1) rs).rows).filter
            (fun row => row.errors.isEmpty)).length
      rcases process_row_outcome db dry idx r with ⟨he, hi1, hf0⟩ | ⟨he, hi0, hf1⟩
      · have hemp : (process_row db dry idx r).row.errors.isEmpty = true := by
          rw [hre, he]; rfl
        simp [List.filter_cons, hemp, hi1, ih3]
        omega
      · have hemp : (process_row db dry idx r).row.errors.isEmpty = false := by
          rw [hre]
          exact List.isEmpty_eq_false_iff_exists_mem.mpr
            (by rcases List.exists_mem_of_ne_nil _ he with ⟨x, hx⟩; exact ⟨x, hx⟩)
        simp [List.filter_cons, hemp, hi0, ih3]
    · show (process_row db dry idx r).failed +
          (process_rows (process_row db dry idx r).db dry (idx + 1) rs).failed =
        (((process_row db dry idx r).row ::
          (process_rows (process_row db dry idx r).db dry (idx + 1) rs).rows).filter
            (fun row => !row.errors.isEmpty)).length
      rcases process_row_outcome db dry idx r with ⟨he, hi1, hf0⟩ | ⟨he, hi0, hf1⟩
      · have hemp : (process_row db dry idx r).row.errors.isEmpty = true := by
          rw [hre, he]; rfl
        simp [List.filter_cons, hemp, hf0, ih4]
      · have hemp : (process_row db dry idx r).row.errors.isEmpty = false := by
          rw [hre]
          exact List.isEmpty_eq_false_iff_exists_mem.mpr
            (by rcases List.exists_mem_of_ne_nil _ he with ⟨x, hx⟩; exact ⟨x, hx⟩)
        simp [List.filter_cons, hemp, hf1, ih4]
        omega
    · intro i hi
      show (((process_row db dry idx r).row ::
        (process_rows (process_row db dry idx r).db dry (idx + 1) rs).rows).get
          ⟨i, hi⟩).row_number = idx + i + 2
      cases i with
      | zero =>
        show (process_row db dry idx r).row.row_number = idx + 0 + 2
        rw [hrow]
        rfl
      | succ n =>
        have hn : n < (process_rows (process_row db dry idx r).db dry
            (idx + 1) rs).rows.length := by
          have hlen : (process_rows db dry idx (r :: rs)).rows.length =
            (process_rows (process_row db dry idx r).db dry
              (idx + 1) rs).rows.length + 1 := rfl
          omega
        show ((process_rows (process_row db dry idx r).db dry
          (idx + 1) rs).rows.get ⟨n, hn⟩).row_number = idx + (n + 1) + 2
        rw [ih5 n hn]
        omega
    · intro row hm h0
      rcases List.mem_cons.mp hm with hm1 | hm2
      · subst hm1
        rw [hre] at h0
        have hcodes := ctx_no_errors_codes db r h0
        rw [hrow]
        exact hcodes
      · exact ih6 row hm2 h0

/-- Claim C3: with all required columns present, reconcile returns one
`ImportRow` per input row in input order, accepted rows (empty error list)
have all three codes resolved and are exactly the `imported` count, rows with
errors are exactly the `failed` count, `imported + failed` equals the number
of input rows, and the call returns normally. -/
theorem reconcile_partition_invariant (db : Db) (raw_columns : List String)
    (table : List InputRow) (dry : Bool)
    (hcols : validate_columns (raw_columns.map normalize_column) = []) :
    ∃ res finalDb,
      process_inventory_upload db raw_columns table dry = .ok (res, finalDb) ∧
      res.rows.length = table.length ∧
      res.imported + res.failed = table.length ∧
      res.imported = (res.rows.filter (fun row => row.errors.isEmpty)).length ∧
      res.failed = (res.rows.filter (fun row => !row.errors.isEmpty)).length ∧
      (∀ i (hi : i < res.rows.length), (res.rows.get ⟨i, hi⟩).row_number = i + 2) ∧
      (∀ row ∈ res.rows, row.errors = [] →
        row.painting_code.isSome = true ∧ row.variant_code.isSome = true ∧
          row.location_code.isSome = true) ∧
      res.dry_run = dry := by
  obtain ⟨h1, h2, h3, h4, h5, h6⟩ := process_rows_spec db dry 0 table
  refine ⟨⟨dry, (process_rows db dry 0 table).imported,
      (process_rows db dry 0 table).failed, (process_rows db dry 0 table).rows⟩,
    (if dry then (process_rows db dry 0 table).db
      else commitDb (process_rows db dry 0 table).db), ?_, h1, h2, h3, h4, ?_, h6, rfl⟩
  · unfold process_inventory_upload
    rw [if_neg (by simp [hcols])]
  · intro i hi
    have := h5 i hi
    simpa using this

/-- Witness for C3 at a concrete single-row upload. -/
theorem reconcile_partition_invariant_witness :
    validate_columns ((["Foreign_Key", "item_desc", "Location", "stocked", "sold",
      "Quantity"]).map normalize_column) = [] ∧
    ∃ res finalDb,
      process_inventory_upload ⟨[], [], [], 0⟩
        ["Foreign_Key", "item_desc", "Location", "stocked", "sold", "Quantity"]
        [⟨"PTG-AB-CD-EF-0001", "d", "", 1, 0, 1⟩] true = .ok (res, finalDb) ∧
      res.rows.length = 1 ∧
      res.imported + res.failed = 1 ∧
      res.imported = (res.rows.filter (fun row => row.errors.isEmpty)).length ∧
      res.failed = (res.rows.filter (fun row => !row.errors.isEmpty)).length ∧
      (∀ i (hi : i < res.rows.length), (res.rows.get ⟨i, hi⟩).row_number = i + 2) ∧
      (∀ row ∈ res.rows, row.errors = [] →
        row.painting_code.isSome = true ∧ row.variant_code.isSome = true ∧
          row.location_code.isSome = true) ∧
      res.dry_run = true := by
  refine ⟨by decide, ?_⟩
  exact reconcile_partition_invariant ⟨[], [], [], 0⟩ _ _ true (by decide)

/-! ### Claim C10: the three mismatch messages never reach a row -/

theorem str_append_assoc (a b c : String) : a ++ b ++ c = a ++ (b ++ c) := by
  apply str_ext
  simp [data_append, List.append_assoc]

theorem prefixed_ne {pre1 pre2 suf1 suf2 : String}
    (hlen : pre1.data.length = pre2.data.length) (hne : pre1 ≠ pre2) :
    pre1 ++ suf1 ≠ pre2 ++ suf2 := by
  intro h
  apply hne
  apply str_ext
  have hd : pre1.data ++ suf1.data = pre2.data ++ suf2.data := by
    rw [← data_append, ← data_append, h]
  exact (List.append_inj hd hlen).1

theorem ne_of_split {a b : String} (pre1 pre2 suf2 suf1 : String)
    (ha : a = pre1 ++ suf1) (hb : b = pre2 ++ suf2)
    (hlen : pre1.data.length = pre2.data.length) (hne : pre1 ≠ pre2) : a ≠ b := by
  rw [ha, hb]
  exact prefixed_ne hlen hne

theorem RowMessageOk_ne_mismatch {m : String} (h : RowMessageOk m) :
    m ≠ "Painting code in serial number does not match record." ∧
    m ≠ "Variant code in serial number does not match record." ∧
    m ≠ "Location code in serial number does not match record." := by
  rcases h with h | h | h | ⟨pc, h⟩ | ⟨vc, pc, h⟩ | ⟨lc, h⟩ | h
  · subst h; refine ⟨by decide, by decide, by decide⟩
  · rw [h]; refine ⟨by decide, by decide, by decide⟩
  · subst h; refine ⟨by decide, by decide, by decide⟩
  · rw [str_append_assoc] at h
    refine ⟨ne_of_split "Painting code \x27" "Painting code i"
        "n serial number does not match record." _ h (by decide) (by decide)
        (by decide), ?_, ?_⟩
    · rw [show ("Painting code \x27" : String) = "P" ++ "ainting code \x27" from
        by decide, str_append_assoc] at h
      exact ne_of_split "P" "V"
        "ariant code in serial number does not match record." _ h (by decide)
        (by decide) (by decide)
    · rw [show ("Painting code \x27" : String) = "P" ++ "ainting code \x27" from
        by decide, str_append_assoc] at h
      exact ne_of_split "P" "L"
        "ocation code in serial number does not match record." _ h (by decide)
        (by decide) (by decide)
  · rw [str_append_assoc, str_append_assoc, str_append_assoc] at h
    refine ⟨?_, ne_of_split "Variant code \x27" "Variant code i"
        "n serial number does not match record." _ h (by decide) (by decide)
        (by decide), ?_⟩
    · rw [show ("Variant code \x27" : String) = "V" ++ "ariant code \x27" from
        by decide, str_append_assoc] at h
      exact ne_of_split "V" "P"
        "ainting code in serial number does not match record." _ h (by decide)
        (by decide) (by decide)
    · rw [show ("Variant code \x27" : String) = "V" ++ "ariant code \x27" from
        by decide, str_append_assoc] at h
      exact ne_of_split "V" "L"
        "ocation code in serial number does not match record." _ h (by decide)
        (by decide) (by decide)
  · rw [str_append_assoc] at h
    refine ⟨?_, ?_, ne_of_split "Location code \x27" "Location code i"
        "n serial number does not match record." _ h (by decide) (by decide)
        (by decide)⟩
    · rw [show ("Location code \x27" : String) = "L" ++ "ocation code \x27" from
        by decide, str_append_assoc] at h
      exact ne_of_split "L" "P"
        "ainting code in serial number does not match record." _ h (by decide)
        (by decide) (by decide)
    · rw [show ("Location code \x27" : String) = "L" ++ "ocation code \x27" from
        by decide, str_append_assoc] at h
      exact ne_of_split "L" "V"
        "ariant code in serial number does not match record." _ h (by decide)
        (by decide) (by decide)
  · subst h; refine ⟨by decide, by decide, by decide⟩

theorem process_rows_rows_mem (db : Db) (dry : Bool) (idx : Nat)
    (table : List InputRow) :
    ∀ row ∈ (process_rows db dry idx table).rows,
      ∃ db' idx' r', row = (process_row db' dry idx' r').row := by
  induction table generalizing db idx with
  | nil =>
    intro row h
    exact absurd h (by simp [process_rows])
  | cons r rs ih =>
    intro row h
    have h' : row ∈ (process_row db dry idx r).row ::
        (process_rows (process_row db dry idx r).db dry (idx + 1) rs).rows := h
    rcases List.mem_cons.mp h' with h1 | h2
    · exact ⟨db, idx, r, h1⟩
    · exact ih _ _ row h2

/-- Claim C10: inside the reconciler the serial-validation step never fails —
no row of any reconcile run (and no single processed row, over any session
state) ever carries one of the three mismatch messages of
`validate_serial_against_components`. -/
theorem mismatch_errors_unreachable (db : Db) (dry : Bool) (idx : Nat)
    (r : InputRow) (table : List InputRow) :
    ("Painting code in serial number does not match record." ∉
        (process_row db dry idx r).row.errors ∧
      "Variant code in serial number does not match record." ∉
        (process_row db dry idx r).row.errors ∧
      "Location code in serial number does not match record." ∉
        (process_row db dry idx r).row.errors) ∧
    ∀ row ∈ (process_rows db dry idx table).rows,
      "Painting code in serial number does not match record." ∉ row.errors ∧
      "Variant code in serial number does not match record." ∉ row.errors ∧
      "Location code in serial number does not match record." ∉ row.errors := by
  have hone : ∀ (db' : Db) (idx' : Nat) (r' : InputRow),
      "Painting code in serial number does not match record." ∉
        (process_row db' dry idx' r').row.errors ∧
      "Variant code in serial number does not match record." ∉
        (process_row db' dry idx' r').row.errors ∧
      "Location code in serial number does not match record." ∉
        (process_row db' dry idx' r').row.errors := by
    intro db' idx' r'
    refine ⟨?_, ?_, ?_⟩ <;> intro hmem
    · exact (RowMessageOk_ne_mismatch
        (process_row_messages db' dry idx' r' _ hmem)).1 rfl
    · exact (RowMessageOk_ne_mismatch
        (process_row_messages db' dry idx' r' _ hmem)).2.1 rfl
    · exact (RowMessageOk_ne_mismatch
        (process_row_messages db' dry idx' r' _ hmem)).2.2 rfl
  refine ⟨hone db idx r, ?_⟩
  intro row hrow
  obtain ⟨db', idx', r', heq⟩ := process_rows_rows_mem db dry idx table row hrow
  rw [heq]
  exact hone db' idx' r'

/-- Witness for C10 at a concrete processed row. -/
theorem mismatch_errors_unreachable_witness :
    "Painting code in serial number does not match record." ∉
      (process_row ⟨[], [], [], 0⟩ true 0
        ⟨"PTG-AB-CD-EF-0001", "d", "", 0, 0, 1⟩).row.errors :=
  (mismatch_errors_unreachable ⟨[], [], [], 0⟩ true 0
    ⟨"PTG-AB-CD-EF-0001", "d", "", 0, 0, 1⟩ []).1.1

/-! ### Claim C4: rows with an empty serial cell -/

theorem empty_serial_ctx_errors_ne (db : Db) (r : InputRow)
    (h : pyStrip r.foreign_key = "") : (mkRowCtx db r).errors ≠ [] := by
  have hsr : (mkRowCtx db r).sr = (["Serial number is required"], none) := by
    rw [ctx_sr, h]
    rfl
  rw [ctx_errors, ctx_errors0, hsr]
  simp

/-- The amended C4, row part: an empty (after trimming) serial cell yields the
"Serial number is required" error, leaves painting and variant unresolved,
adopts the trimmed uppercased location column as the location code when that
column is non-blank (and only then leaves location unresolved), counts the
row as failed, and leaves the session state untouched. -/
theorem process_row_empty_serial (db : Db) (dry : Bool) (idx : Nat) (r : InputRow)
    (h : pyStrip r.foreign_key = "") :
    "Serial number is required" ∈ (process_row db dry idx r).row.errors ∧
    (process_row db dry idx r).row.painting_code = none ∧
    (process_row db dry idx r).row.variant_code = none ∧
    (process_row db dry idx r).row.location_code =
      (if pyUpper (pyStrip r.location) = "" then none
        else some (pyUpper (pyStrip r.location))) ∧
    (process_row db dry idx r).imported = 0 ∧
    (process_row db dry idx r).failed = 1 ∧
    (process_row db dry idx r).db = db := by
  have hsr : (mkRowCtx db r).sr = (["Serial number is required"], none) := by
    rw [ctx_sr, h]
    rfl
  have hrej := process_row_reject db dry idx r (empty_serial_ctx_errors_ne db r h)
  rw [hrej]
  refine ⟨?_, ?_, ?_, ?_, rfl, rfl, rfl⟩
  · show "Serial number is required" ∈ (mkRowCtx db r).errors
    rw [ctx_errors, ctx_errors0, hsr]
    simp
  · show (mkRowCtx db r).painting_code = none
    rw [ctx_painting_code, hsr]
    rfl
  · show (mkRowCtx db r).variant_code = none
    rw [ctx_variant_code, hsr]
    rfl
  · show (mkRowCtx db r).location_code =
      (if pyUpper (pyStrip r.location) = "" then none
        else some (pyUpper (pyStrip r.location)))
    rw [ctx_location_code, ctx_lc, hsr]
    show (applyLocationColumn none (pyUpper (pyStrip r.location))).2 = _
    by_cases hp : pyUpper (pyStrip r.location) = ""
    · rw [if_pos hp]
      simp [applyLocationColumn, truthy, hp]
    · rw [if_neg hp]
      simp [applyLocationColumn, truthy, hp]

/-- The amended C4, call level: inserting an empty-serial row into a batch
leaves the session threading of every other row unchanged (the rows after it
are processed against the same state as the rows before it produced), adds
the processed row itself in place, adds nothing to `imported`, and adds
exactly 1 to `failed`. -/
theorem empty_serial_row_outcome (db : Db) (dry : Bool) (idx0 : Nat)
    (xs ys : List InputRow) (r : InputRow)
    (h : pyStrip r.foreign_key = "") :
    ("Serial number is required" ∈
      (process_row (process_rows db dry idx0 xs).db dry (idx0 + xs.length)
        r).row.errors ∧
     (process_row (process_rows db dry idx0 xs).db dry (idx0 + xs.length)
        r).row.painting_code = none ∧
     (process_row (process_rows db dry idx0 xs).db dry (idx0 + xs.length)
        r).row.variant_code = none ∧
     (process_row (process_rows db dry idx0 xs).db dry (idx0 + xs.length)
        r).row.location_code =
       (if pyUpper (pyStrip r.location) = "" then none
         else some (pyUpper (pyStrip r.location)))) ∧
    process_rows db dry idx0 (xs ++ r :: ys) =
      ⟨(process_rows db dry idx0 xs).rows ++
        (process_row (process_rows db dry idx0 xs).db dry (idx0 + xs.length)
          r).row ::
        (process_rows (process_rows db dry idx0 xs).db dry
          (idx0 + xs.length + 1) ys).rows,
        (process_rows (process_rows db dry idx0 xs).db dry
          (idx0 + xs.length + 1) ys).db,
        (process_rows db dry idx0 xs).imported +
          (process_rows (process_rows db dry idx0 xs).db dry
            (idx0 + xs.length + 1) ys).imported,
        (process_rows db dry idx0 xs).failed +
          (1 + (process_rows (process_rows db dry idx0 xs).db dry
            (idx0 + xs.length + 1) ys).failed)⟩ := by
  obtain ⟨h1, h2, h3, h4, _, _, _⟩ :=
    process_row_empty_serial (process_rows db dry idx0 xs).db dry
      (idx0 + xs.length) r h
  refine ⟨⟨h1, h2, h3, h4⟩, ?_⟩
  rw [process_rows_append db dry idx0 xs (r :: ys)]
  have hrej := process_row_reject (process_rows db dry idx0 xs).db dry
    (idx0 + xs.length) r (empty_serial_ctx_errors_ne _ r h)
  have hcons : process_rows (process_rows db dry idx0 xs).db dry
      (idx0 + xs.length) (r :: ys) =
    ⟨(process_row (process_rows db dry idx0 xs).db dry (idx0 + xs.length) r).row ::
      (process_rows (process_row (process_rows db dry idx0 xs).db dry
        (idx0 + xs.length) r).db dry (idx0 + xs.length + 1) ys).rows,
      (process_rows (process_row (process_rows db dry idx0 xs).db dry
        (idx0 + xs.length) r).db dry (idx0 + xs.length + 1) ys).db,
      (process_row (process_rows db dry idx0 xs).db dry (idx0 + xs.length)
        r).imported +
        (process_rows (process_row (process_rows db dry idx0 xs).db dry
          (idx0 + xs.length) r).db dry (idx0 + xs.length + 1) ys).imported,
      (process_row (process_rows db dry idx0 xs).db dry (idx0 + xs.length)
        r).failed +
        (process_rows (process_row (process_rows db dry idx0 xs).db dry
          (idx0 + xs.length) r).db dry (idx0 + xs.length + 1) ys).failed⟩ := rfl
  rw [hcons, hrej]
  simp

/-- Counterexample to C4 as stated: with an empty serial cell but a non-blank
location column, the recorded row's location code is not unresolved — the
column value is adopted. -/
theorem empty_serial_location_adopted_counterexample :
    pyStrip "   " = "" ∧
    (process_row ⟨[], [], [], 0⟩ true 0
      ⟨"   ", "d", "wh", 1, 0, 1⟩).row.location_code ≠ none := by
  decide

/-- Witness for the amended C4 at a concrete call. -/
theorem empty_serial_row_outcome_witness :
    "Serial number is required" ∈
      (process_row (process_rows ⟨[], [], [], 0⟩ true 0 []).db true
        (0 + ([] : List InputRow).length)
        ⟨" ", "d", "wh", 1, 0, 1⟩).row.errors :=
  (empty_serial_row_outcome ⟨[], [], [], 0⟩ true 0 [] []
    ⟨" ", "d", "wh", 1, 0, 1⟩ (by decide)).1.1

/-! ### Behaviour of `str.replace` on a serial whose last segment is the
pattern -/

theorem pyReplaceAux_fuel_irrel (pat rep : List Char) :
    ∀ (f g : Nat) (s : List Char), s.length ≤ f → s.length ≤ g →
      pyReplaceAux pat rep f s = pyReplaceAux pat rep g s := by
  intro f
  induction f with
  | zero =>
    intro g s hf hg
    obtain rfl : s = [] := List.eq_nil_of_length_eq_zero (Nat.le_zero.mp hf)
    cases g <;> rfl
  | succ f ih =>
    intro g s hf hg
    cases s with
    | nil => cases g <;> rfl
    | cons c cs =>
      obtain ⟨g', rfl⟩ : ∃ g', g = g' + 1 :=
        ⟨g - 1, by rw [List.length_cons] at hg; omega⟩
      have hcf : cs.length ≤ f := by rw [List.length_cons] at hf; omega
      have hcg : cs.length ≤ g' := by rw [List.length_cons] at hg; omega
      simp only [pyReplaceAux]
      by_cases hemp : pat.isEmpty
      · rw [if_pos hemp, if_pos hemp, ih g' cs hcf hcg]
      · rw [if_neg hemp, if_neg hemp]
        by_cases hpre : pat.isPrefixOf (c :: cs)
        · rw [if_pos hpre, if_pos hpre]
          have hdf : (cs.drop (pat.length - 1)).length ≤ f := by
            rw [List.length_drop]; omega
          have hdg : (cs.drop (pat.length - 1)).length ≤ g' := by
            rw [List.length_drop]; omega
          rw [ih g' _ hdf hdg]
        · rw [if_neg hpre, if_neg hpre, ih g' cs hcf hcg]

theorem prefix_append_dash :
    ∀ (pat xs zs : List Char), '-' ∉ pat →
      pat <+: (xs ++ '-' :: zs) → pat <+: xs := by
  intro pat
  induction pat with
  | nil => intro xs zs _ _; exact List.nil_prefix
  | cons a pat ih =>
    intro xs zs hd h
    cases xs with
    | nil =>
      exfalso
      rcases h with ⟨t, ht⟩
      rw [List.cons_append] at ht
      have ha : a = '-' := ((List.cons.injEq _ _ _ _).mp ht).1
      exact hd (ha ▸ List.mem_cons_self a pat)
    | cons x xs' =>
      rcases h with ⟨t, ht⟩
      rw [List.cons_append, List.cons_append] at ht
      rcases (List.cons.injEq _ _ _ _).mp ht with ⟨ha, htl⟩
      subst ha
      have hd' : '-' ∉ pat := fun hm => hd (List.mem_cons_of_mem _ hm)
      obtain ⟨u, hu⟩ := ih xs' zs hd' ⟨t, htl⟩
      exact ⟨u, by rw [List.cons_append, hu]⟩

theorem pyReplaceAux_dash_cons (pat rep zs : List Char) (hne : pat ≠ [])
    (hd : '-' ∉ pat) :
    pyReplaceAux pat rep ('-' :: zs).length ('-' :: zs) =
      '-' :: pyReplaceAux pat rep zs.length zs := by
  have hemp : pat.isEmpty = false := by
    cases pat
    · exact absurd rfl hne
    · rfl
  have hpre : pat.isPrefixOf ('-' :: zs) = false := by
    cases hp : pat.isPrefixOf ('-' :: zs)
    · rfl
    · exfalso
      have hpp := List.isPrefixOf_iff_prefix.mp hp
      cases pat with
      | nil => exact hne rfl
      | cons a t =>
        rcases hpp with ⟨u, hu⟩
        rw [List.cons_append] at hu
        have ha : a = '-' := ((List.cons.injEq _ _ _ _).mp hu).1
        exact hd (ha ▸ List.mem_cons_self a t)
  show pyReplaceAux pat rep (zs.length + 1) ('-' :: zs) = _
  simp only [pyReplaceAux, hemp, hpre, Bool.false_eq_true, if_false]

theorem pyReplaceAux_nil_eq (pat rep : List Char) (hemp : pat.isEmpty = false) :
    pyReplaceAux pat rep ([] : List Char).length [] = [] := by
  simp [pyReplaceAux, hemp]

theorem pyReplaceAux_append_dash (pat rep : List Char) (hne : pat ≠ [])
    (hd : '-' ∉ pat) :
    ∀ (n : Nat) (xs zs : List Char), xs.length ≤ n →
      pyReplaceAux pat rep (xs ++ '-' :: zs).length (xs ++ '-' :: zs) =
        pyReplaceAux pat rep xs.length xs ++
          '-' :: pyReplaceAux pat rep zs.length zs := by
  have hemp : pat.isEmpty = false := by
    cases pat
    · exact absurd rfl hne
    · rfl
  intro n
  induction n with
  | zero =>
    intro xs zs hxs
    obtain rfl : xs = [] := List.eq_nil_of_length_eq_zero (Nat.le_zero.mp hxs)
    rw [List.nil_append, pyReplaceAux_dash_cons pat rep zs hne hd,
      pyReplaceAux_nil_eq pat rep hemp, List.nil_append]
  | succ n ih =>
    intro xs zs hxs
    cases xs with
    | nil =>
      rw [List.nil_append, pyReplaceAux_dash_cons pat rep zs hne hd,
        pyReplaceAux_nil_eq pat rep hemp, List.nil_append]
    | cons c cs =>
      have hcs : cs.length ≤ n := by simp at hxs; omega
      by_cases hpre : pat.isPrefixOf (c :: cs ++ '-' :: zs) = true
      · have hpre' : pat.isPrefixOf (c :: cs) = true := by
          rw [List.isPrefixOf_iff_prefix] at hpre ⊢
          exact prefix_append_dash pat (c :: cs) zs hd hpre
        have hplen : pat.length ≤ cs.length + 1 := by
          have := (List.isPrefixOf_iff_prefix.mp hpre').length_le
          simpa using this
        show pyReplaceAux pat rep ((cs ++ '-' :: zs).length + 1)
          (c :: (cs ++ '-' :: zs)) = _
        simp only [pyReplaceAux, hemp, Bool.false_eq_true, if_false]
        rw [if_pos (show pat.isPrefixOf (c :: (cs ++ '-' :: zs)) = true from hpre),
          if_pos hpre']
        rw [show (cs ++ '-' :: zs).drop (pat.length - 1) =
          cs.drop (pat.length - 1) ++ '-' :: zs from
          List.drop_append_of_le_length (by omega)]
        rw [pyReplaceAux_fuel_irrel pat rep (cs ++ '-' :: zs).length
          (cs.drop (pat.length - 1) ++ '-' :: zs).length _
          (by simp only [List.length_append, List.length_cons, List.length_drop]; omega)
          (le_refl _)]
        rw [ih (cs.drop (pat.length - 1)) zs (by rw [List.length_drop]; omega)]
        rw [pyReplaceAux_fuel_irrel pat rep cs.length
          (cs.drop (pat.length - 1)).length _
          (by rw [List.length_drop]; omega) (le_refl _)]
        rw [List.append_assoc]
      · have hpre' : pat.isPrefixOf (c :: cs) = false := by
          cases hp : pat.isPrefixOf (c :: cs)
          · rfl
          · exfalso
            apply hpre
            rw [List.isPrefixOf_iff_prefix] at hp ⊢
            exact hp.trans (by rw [List.cons_append]; exact List.prefix_append _ _)
        have hpref : pat.isPrefixOf (c :: cs ++ '-' :: zs) = false := by
          cases hp : pat.isPrefixOf (c :: cs ++ '-' :: zs)
          · rfl
          · exact absurd hp hpre
        show pyReplaceAux pat rep ((cs ++ '-' :: zs).length + 1)
          (c :: (cs ++ '-' :: zs)) = _
        simp only [pyReplaceAux, hemp, Bool.false_eq_true, if_false]
        rw [if_neg (show ¬pat.isPrefixOf (c :: (cs ++ '-' :: zs)) = true from
            by rw [show (c :: (cs ++ '-' :: zs)) = (c :: cs ++ '-' :: zs) from rfl,
              hpref]; simp),
          if_neg (by rw [hpre']; simp)]
        rw [ih cs zs hcs, List.cons_append]

theorem pyReplaceAux_self (pat rep : List Char) (hne : pat ≠ []) :
    pyReplaceAux pat rep pat.length pat = rep := by
  have hemp : pat.isEmpty = false := by
    cases pat
    · exact absurd rfl hne
    · rfl
  cases pat with
  | nil => exact absurd rfl hne
  | cons a t =>
    have hpre : (a :: t).isPrefixOf (a :: t) = true := by
      rw [List.isPrefixOf_iff_prefix]
    show pyReplaceAux (a :: t) rep (t.length + 1) (a :: t) = rep
    simp only [pyReplaceAux, hemp, Bool.false_eq_true, if_false, hpre, if_true]
    rw [show (a :: t).length - 1 = t.length from by simp, List.drop_length]
    rw [pyReplaceAux_fuel_irrel (a :: t) rep t.length 0 [] (by simp) (by simp)]
    rw [show pyReplaceAux (a :: t) rep 0 [] = [] from by simp [pyReplaceAux, hemp]]
    exact List.append_nil rep

/-- Replacing the pattern in a string of the form `xs ++ "-" ++ pat` (with no
`'-'` in the pattern) rewrites the final segment to the replacement. -/
theorem pyReplace_append_dash_pat (xs : List Char) (pat rep : String)
    (hne : pat.data ≠ []) (hd : '-' ∉ pat.data) :
    (pyReplace ⟨xs ++ '-' :: pat.data⟩ pat rep).data =
      pyReplaceAux pat.data rep.data xs.length xs ++ '-' :: rep.data := by
  show pyReplaceAux pat.data rep.data (xs ++ '-' :: pat.data).length
    (xs ++ '-' :: pat.data) = _
  rw [pyReplaceAux_append_dash pat.data rep.data hne hd xs.length xs pat.data
    (le_refl _)]
  rw [pyReplaceAux_self pat.data rep.data hne]

/-! ### Claim C5: dry-run auto-assignment of the `0000` placeholder -/

/-- `finalizeSerial` with its local variables inlined (definitional). -/
theorem finalizeSerial_eq (db : Db) (s : String) (c : SerialComponents)
    (P : Painting) (V : ProductVariant) (L : Location) :
    finalizeSerial db s c P V L =
      (match validate_serial_against_components s
          ⟨pyUpper P.code, build_variant_code V.category V.size V.stretch V.framing,
            pyUpper L.code, c.sequence⟩ with
      | .error e => (s, [e])
      | .ok _ =>
        match findItemBySerial db (if c.sequence = "0000" then
            pyReplace (SerialComponents.serial_number
              ⟨pyUpper P.code, build_variant_code V.category V.size V.stretch
                V.framing, pyUpper L.code, c.sequence⟩) c.sequence
              (next_sequence_number (countSerialPrefix db
                ("PTG-" ++ pyUpper P.code ++ "-")))
          else s) with
        | some _ =>
          ((if c.sequence = "0000" then
            pyReplace (SerialComponents.serial_number
              ⟨pyUpper P.code, build_variant_code V.category V.size V.stretch
                V.framing, pyUpper L.code, c.sequence⟩) c.sequence
              (next_sequence_number (countSerialPrefix db
                ("PTG-" ++ pyUpper P.code ++ "-")))
          else s), ["Serial number already exists in inventory"])
        | none =>
          ((if c.sequence = "0000" then
            pyReplace (SerialComponents.serial_number
              ⟨pyUpper P.code, build_variant_code V.category V.size V.stretch
                V.framing, pyUpper L.code, c.sequence⟩) c.sequence
              (next_sequence_number (countSerialPrefix db
                ("PTG-" ++ pyUpper P.code ++ "-")))
          else s), [])) := rfl

/-- Under the guard, with the `0000` placeholder, a matching-prefix count of 3
and no duplicate of the substituted serial, the final block returns the
substituted serial and no error. -/
theorem finalizeSerial_autoseq (db : Db) (s : String) (c : SerialComponents)
    (P : Painting) (V : ProductVariant) (L : Location)
    (hp : parse_serial_number s = .ok c)
    (hPc : P.code = c.painting_code)
    (hVc : build_variant_code V.category V.size V.stretch V.framing = c.variant_code)
    (hLc : L.code = c.location_code)
    (hseq : c.sequence = "0000")
    (hcount : countSerialPrefix db ("PTG-" ++ c.painting_code ++ "-") = 3)
    (hdup : findItemBySerial db (pyReplace c.serial_number "0000"
      (next_sequence_number 3)) = none) :
    finalizeSerial db s c P V L =
      (pyReplace c.serial_number "0000" (next_sequence_number 3), []) := by
  have hup := parse_ok_upper hp
  have hexp : (⟨pyUpper P.code, build_variant_code V.category V.size V.stretch
      V.framing, pyUpper L.code, c.sequence⟩ : SerialComponents) = c := by
    rw [hPc, hup.1, hVc, hLc, hup.2]
  have hpre2 : ("PTG-" ++ pyUpper P.code ++ "-" : String) =
      "PTG-" ++ c.painting_code ++ "-" := by
    rw [hPc, hup.1]
  have hval : validate_serial_against_components s c = .ok () :=
    validate_ok_of_eq hp rfl rfl rfl
  rw [finalizeSerial_eq, hexp, hpre2, hcount, hseq, hval,
    if_pos (rfl : ("0000" : String) = "0000"), hdup]

/-- The amended C5: a dry-run row whose serial carries the `0000` placeholder,
whose painting/variant/location resolve, whose painting has exactly 3
matching-prefix inventory rows, and whose substituted serial does not collide
with an existing inventory serial, is imported with a serial whose final
(sequence) segment is `0004`; and a dry run never persists anything — no
`InventoryItem` is created and no commit is issued, the session state of the
whole call is unchanged. -/
theorem dry_run_autoseq_outcome (db : Db) (idx : Nat) (r : InputRow)
    (p v l : String) (P : Painting) (V : ProductVariant) (L : Location)
    (hparse : parse_serial_number (pyStrip r.foreign_key) = .ok ⟨p, v, l, "0000"⟩)
    (hprov : pyUpper (pyStrip r.location) = "" ∨ pyUpper (pyStrip r.location) = l)
    (hP : findPaintingByCode db p = some P)
    (hV : P.variants.find? (fun cand => build_variant_code cand.category cand.size
      cand.stretch cand.framing == v) = some V)
    (hL : findLocationByCode db l = some L)
    (hcount : countSerialPrefix db ("PTG-" ++ p ++ "-") = 3)
    (hdup : findItemBySerial db (pyReplace
      (SerialComponents.serial_number ⟨p, v, l, "0000"⟩) "0000"
      (next_sequence_number 3)) = none) :
    (∃ xs, (process_row db true idx r).row.serial_number.data =
      xs ++ '-' :: ['0', '0', '0', '4']) ∧
    (process_row db true idx r).imported = 1 ∧
    (process_row db true idx r).failed = 0 ∧
    (process_row db true idx r).db = db ∧
    (∀ (table : List InputRow) (idx0 : Nat),
      (process_rows db true idx0 table).db = db) ∧
    (∀ (raw_columns : List String) (table : List InputRow) (res : ImportResult)
      (finalDb : Db),
      process_inventory_upload db raw_columns table true = .ok (res, finalDb) →
        finalDb = db) := by
  have hne := parse_ok_ne_nil hparse
  have hsr : (mkRowCtx db r).sr = ([], some ⟨p, v, l, "0000"⟩) := by
    rw [ctx_sr]
    unfold resolveSerial
    rw [if_neg (parse_ok_s_ne hparse), hparse]
  have hcp : (mkRowCtx db r).painting_code = some p := by
    rw [ctx_painting_code, hsr]
    rfl
  have hcv : (mkRowCtx db r).variant_code = some v := by
    rw [ctx_variant_code, hsr]
    rfl
  have hti : truthy (some p) = true := truthy_some_of_ne hne.1
  have htv : truthy (some v) = true := truthy_some_of_ne hne.2.1
  have htl : truthy (some l) = true := truthy_some_of_ne hne.2.2
  have hlc : (mkRowCtx db r).lc = ([], some l) := by
    rw [ctx_lc, show (mkRowCtx db r).sr.2.map SerialComponents.location_code =
      some l from by rw [hsr]; rfl]
    unfold applyLocationColumn
    rcases hprov with hpv | hpv
    · rw [if_neg (by simp [hpv]), if_neg (by simp [hpv])]
    · rw [if_neg (by simp [hpv]), if_neg (by simp [htl])]
  have hlcc : (mkRowCtx db r).location_code = some l := by
    rw [ctx_location_code, hlc]
  have hrp : (mkRowCtx db r).rp = (some P, []) := by
    rw [ctx_rp, hcp]
    unfold resolvePainting
    rw [if_pos hti]
    simp only [Option.getD_some]
    rw [hP]
  have hrv : (mkRowCtx db r).rv = (some V, []) := by
    rw [ctx_rv, show (mkRowCtx db r).rp.1 = some P from by rw [hrp], hcv, hcp]
    simp only [resolveVariant]
    rw [if_pos htv]
    simp only [Option.getD_some]
    rw [hV]
  have hrl : (mkRowCtx db r).rl = (some L, []) := by
    rw [ctx_rl, hlcc]
    unfold resolveLocation
    rw [if_pos htl]
    simp only [Option.getD_some]
    rw [hL]
  have herr0 : (mkRowCtx db r).errors0 = [] := by
    rw [ctx_errors0, hsr, hlc, hrp, hrv, hrl]
    rfl
  have hfin : (mkRowCtx db r).fin =
      finalizeSerial db (pyStrip r.foreign_key) ⟨p, v, l, "0000"⟩ P V L := by
    rw [ctx_fin, show (mkRowCtx db r).rp.1 = some P from by rw [hrp],
      show (mkRowCtx db r).rv.1 = some V from by rw [hrv],
      show (mkRowCtx db r).rl.1 = some L from by rw [hrl],
      show (mkRowCtx db r).sr.2 = some ⟨p, v, l, "0000"⟩ from by rw [hsr]]
    exact if_pos herr0
  have hfv : finalizeSerial db (pyStrip r.foreign_key) ⟨p, v, l, "0000"⟩ P V L =
      (pyReplace (SerialComponents.serial_number ⟨p, v, l, "0000"⟩) "0000"
        (next_sequence_number 3), []) :=
    finalizeSerial_autoseq db (pyStrip r.foreign_key) ⟨p, v, l, "0000"⟩ P V L
      hparse (findPaintingByCode_code hP) (find_variant_code hV)
      (findLocationByCode_code hL) rfl hcount hdup
  have herrs : (mkRowCtx db r).errors = [] := by
    rw [ctx_errors, herr0, hfin, hfv]
    rfl
  obtain ⟨P', V', L', _, _, _, heq⟩ := process_row_accept db true idx r herrs
  refine ⟨?_, ?_, ?_, ?_, ?_, ?_⟩
  · rw [heq]
    show ∃ xs, (mkRowCtx db r).fin.1.data = xs ++ '-' :: ['0', '0', '0', '4']
    rw [hfin, hfv]
    obtain ⟨xs, hxs⟩ : ∃ xs, (SerialComponents.serial_number
        ⟨p, v, l, "0000"⟩).data = xs ++ '-' :: ("0000" : String).data :=
      ⟨"PTG-".data ++ (p.data ++ ('-' :: (v.data ++ ('-' :: l.data)))), by
        rw [serial_number_data]
        simp [List.append_assoc]⟩
    rw [show SerialComponents.serial_number ⟨p, v, l, "0000"⟩ =
      (⟨xs ++ '-' :: ("0000" : String).data⟩ : String) from str_ext hxs]
    rw [pyReplace_append_dash_pat xs "0000" (next_sequence_number 3)
      (by decide) (by decide)]
    exact ⟨pyReplaceAux ("0000" : String).data (next_sequence_number 3).data
      xs.length xs,
      by rw [show (next_sequence_number 3).data = ['0', '0', '0', '4'] from
        by decide]⟩
  · rw [heq]
  · rw [heq]
  · rw [heq]
    rfl
  · intro table idx0
    exact process_rows_dry_db db idx0 table
  · intro rcols table res fdb hok
    simp only [process_inventory_upload] at hok
    split at hok
    · exact absurd hok (by simp)
    · simp only [Except.ok.injEq, Prod.mk.injEq] at hok
      rw [← hok.2]
      simpa using process_rows_dry_db db 0 table

/-- Counterexample to C5 as stated: dry run, `0000` placeholder, painting with
exactly 3 matching-prefix inventory rows — but the computed serial `…-0004`
already exists, so the row fails instead of incrementing `imported`. -/
theorem dry_run_autoseq_duplicate_counterexample :
    (process_inventory_upload
      ⟨[⟨1, "AB", [⟨1, "Canvas", "Small", false, false⟩]⟩], [⟨1, "WH"⟩],
        [⟨1, 1, 1, "PTG-AB-CANVSMALNN-WH-0001", 1⟩,
         ⟨1, 1, 1, "PTG-AB-CANVSMALNN-WH-0002", 1⟩,
         ⟨1, 1, 1, "PTG-AB-CANVSMALNN-WH-0004", 1⟩], 0⟩
      ["foreign_key", "item_desc", "location", "stocked", "sold", "quantity"]
      [⟨"PTG-AB-CANVSMALNN-WH-0000", "d", "", 2, 1, 0⟩] true).toOption.map
        (fun pr => (pr.1.imported, pr.1.failed,
          pr.1.rows.map (fun row => row.serial_number))) =
      some (0, 1, ["PTG-AB-CANVSMALNN-WH-0004"]) ∧
    countSerialPrefix
      ⟨[⟨1, "AB", [⟨1, "Canvas", "Small", false, false⟩]⟩], [⟨1, "WH"⟩],
        [⟨1, 1, 1, "PTG-AB-CANVSMALNN-WH-0001", 1⟩,
         ⟨1, 1, 1, "PTG-AB-CANVSMALNN-WH-0002", 1⟩,
         ⟨1, 1, 1, "PTG-AB-CANVSMALNN-WH-0004", 1⟩], 0⟩ "PTG-AB-" = 3 := by
  constructor
  · decide
  · decide

/-- Witness for the amended C5 at a concrete collision-free catalog. -/
theorem dry_run_autoseq_outcome_witness :
    (∃ xs, (process_row
      ⟨[⟨1, "AB", [⟨1, "Canvas", "Small", false, false⟩]⟩], [⟨1, "WH"⟩],
        [⟨1, 1, 1, "PTG-AB-CANVSMALNN-WH-0001", 1⟩,
         ⟨1, 1, 1, "PTG-AB-CANVSMALNN-WH-0002", 1⟩,
         ⟨1, 1, 1, "PTG-AB-CANVSMALNN-WH-0003", 1⟩], 0⟩ true 0
      ⟨"PTG-AB-CANVSMALNN-WH-0000", "d", "", 2, 1, 0⟩).row.serial_number.data =
        xs ++ '-' :: ['0', '0', '0', '4']) ∧
    (process_row
      ⟨[⟨1, "AB", [⟨1, "Canvas", "Small", false, false⟩]⟩], [⟨1, "WH"⟩],
        [⟨1, 1, 1, "PTG-AB-CANVSMALNN-WH-0001", 1⟩,
         ⟨1, 1, 1, "PTG-AB-CANVSMALNN-WH-0002", 1⟩,
         ⟨1, 1, 1, "PTG-AB-CANVSMALNN-WH-0003", 1⟩], 0⟩ true 0
      ⟨"PTG-AB-CANVSMALNN-WH-0000", "d", "", 2, 1, 0⟩).imported = 1 := by
  have h := dry_run_autoseq_outcome
    ⟨[⟨1, "AB", [⟨1, "Canvas", "Small", false, false⟩]⟩], [⟨1, "WH"⟩],
      [⟨1, 1, 1, "PTG-AB-CANVSMALNN-WH-0001", 1⟩,
       ⟨1, 1, 1, "PTG-AB-CANVSMALNN-WH-0002", 1⟩,
       ⟨1, 1, 1, "PTG-AB-CANVSMALNN-WH-0003", 1⟩], 0⟩ 0
    ⟨"PTG-AB-CANVSMALNN-WH-0000", "d", "", 2, 1, 0⟩
    "AB" "CANVSMALNN" "WH"
    ⟨1, "AB", [⟨1, "Canvas", "Small", false, false⟩]⟩
    ⟨1, "Canvas", "Small", false, false⟩ ⟨1, "WH"⟩
    (by decide) (by decide) (by decide) (by decide) (by decide) (by decide)
    (by decide)
  exact ⟨h.1, h.2.1⟩

/-! ### C8: the missing-column guard -/

/-- C8: every `process_inventory_upload` call either has no required column
missing from the normalized headers and returns `.ok`, or it aborts: for
every catalog state, every row table and both dry-run modes it returns the
single error `"Missing required columns: " ++ joinCommaSpace names` — hence
produces no `ImportRow` and touches no row — where `names` is alphabetically
sorted, duplicate-free, and holds exactly the members of `EXPECTED_COLUMNS`
absent from the normalized headers. -/
theorem missing_columns_abort (raw_columns : List String) (db : Db)
    (table : List InputRow) (dry_run : Bool) :
    (validate_columns (raw_columns.map normalize_column) = [] ∧
      ∃ res finalDb, process_inventory_upload db raw_columns table dry_run =
        .ok (res, finalDb)) ∨
    (validate_columns (raw_columns.map normalize_column) ≠ [] ∧
      (∀ db2 table2 dry2,
        process_inventory_upload db2 raw_columns table2 dry2 =
          .error ("Missing required columns: " ++
            joinCommaSpace (pySorted (validate_columns
              (raw_columns.map normalize_column))))) ∧
      List.Sorted (fun a b : String => a ≤ b)
        (pySorted (validate_columns (raw_columns.map normalize_column))) ∧
      (pySorted (validate_columns (raw_columns.map normalize_column))).Nodup ∧
      (∀ c, c ∈ pySorted (validate_columns (raw_columns.map normalize_column)) ↔
        c ∈ EXPECTED_COLUMNS ∧ c ∉ raw_columns.map normalize_column)) := by
  by_cases hm : validate_columns (raw_columns.map normalize_column) = []
  · refine Or.inl ⟨hm,
      ⟨dry_run, (process_rows db dry_run 0 table).imported,
        (process_rows db dry_run 0 table).failed,
        (process_rows db dry_run 0 table).rows⟩,
      if dry_run then (process_rows db dry_run 0 table).db
        else commitDb (process_rows db dry_run 0 table).db, ?_⟩
    simp only [process_inventory_upload]
    exact if_neg (not_not_intro hm)
  · refine Or.inr ⟨hm, fun db2 table2 dry2 => ?_, ?_, ?_, fun c => ?_⟩
    · simp only [process_inventory_upload]
      exact if_pos hm
    · exact List.sorted_insertionSort _ _
    · exact (List.perm_insertionSort _ _).nodup_iff.mpr
        ((by decide : EXPECTED_COLUMNS.Nodup).filter _)
    · simp only [pySorted, (List.perm_insertionSort _ _).mem_iff,
        validate_columns, List.mem_filter]
      simp

/-! ### C1: the sequence substitution corrupts other segments -/

/-- C1: the sequence placeholder substitution is performed with
`str.replace`, which rewrites every occurrence of `"0000"` in the expected
serial, not only the trailing sequence segment.  Concretely: a catalog with
painting `AB0000` (one Canvas/Small unframed unstretched variant) and
location `WH`, given the single row `PTG-AB0000-CANVSMALNN-WH-0000` in a dry
run, imports the row under the serial `PTG-AB0001-CANVSMALNN-WH-0001` — the
painting segment was rewritten too — instead of the claimed
`PTG-AB0000-CANVSMALNN-WH-0001`. -/
theorem sequence_replace_rewrites_all_occurrences :
    (process_inventory_upload
        ⟨[⟨1, "AB0000", [⟨1, "Canvas", "Small", false, false⟩]⟩],
          [⟨7, "WH"⟩], [], 0⟩
        ["foreign_key", "item_desc", "location", "stocked", "sold", "quantity"]
        [⟨"PTG-AB0000-CANVSMALNN-WH-0000", "Canvas print", "", 0, 0, 1⟩]
        true).toOption.map
        (fun pr => (pr.1.imported, pr.1.failed,
          pr.1.rows.map (fun row => row.serial_number))) =
      some (1, 0, ["PTG-AB0001-CANVSMALNN-WH-0001"]) ∧
    "PTG-AB0001-CANVSMALNN-WH-0001" ≠ "PTG-AB0000-CANVSMALNN-WH-0001" := by
  decide

end CoastalWaves
